import Mathlib

/-! The `tm` abstract type of janet-date (src/tm.c).

A shallow embedding of the accessor protocol that `src/tm.c` registers for the
`tm` abstract type (`jd_tm_get`, `jd_tm_put`, `jd_tm_next`) and of the
conversion functions built on the C library (`jd_mktime`, `jd_time_utc`, ...).

Conventions.
* C `int` objects are `Int`s kept in the range of a 32-bit two's complement
  word; arithmetic that the C code performs on `int` is wrapped by `wrap32`.
* A Janet value is a term of `Janet`; the host API used by the file
  (`janet_checktype`, `janet_keyeq`, `janet_truthy`, ...) is embedded next to it.
* A `janet_panic` is a non-local exit.  Functions that may panic return the
  memory they leave behind together with `Except Failure _`; a `Failure` names
  the statement through which control leaves, and `Failure.observed` tells
  whether the host sees a panic or the end of the process.
* Everything that C leaves to the platform (the optional members of
  `struct tm`, `mktime`, `gmtime`, `localtime`, undefined casts) is a field of
  `Platform`.
-/

namespace JanetDate

/-! ## Machine integers -/

def INT32_MIN : Int := -2147483648
def INT32_MAX : Int := 2147483647

/-- Reduction of an integer to the 32-bit two's complement range. -/
def wrap32 (x : Int) : Int := (x + 2147483648) % 4294967296 - 2147483648

/-- The value is representable in a C `int`. -/
def isInt32 (x : Int) : Prop := INT32_MIN ≤ x ∧ x ≤ INT32_MAX

instance (x : Int) : Decidable (isInt32 x) := by unfold isInt32; infer_instance

/-! ## Janet values -/

/-- The enumeration `JanetType` of janet.h, in its declaration order. -/
inductive JanetType
  | NUMBER | NIL | BOOLEAN | FIBER | STRING | SYMBOL | KEYWORD | ARRAY
  | TUPLE | TABLE | STRUCT | BUFFER | FUNCTION | CFUNCTION | ABSTRACT | POINTER
  deriving DecidableEq, Repr

/-- Position of a type in the enumeration; `JANET_TFLAG_x` is `1 << x`. -/
def JanetType.index : JanetType → Nat
  | .NUMBER => 0 | .NIL => 1 | .BOOLEAN => 2 | .FIBER => 3 | .STRING => 4
  | .SYMBOL => 5 | .KEYWORD => 6 | .ARRAY => 7 | .TUPLE => 8 | .TABLE => 9
  | .STRUCT => 10 | .BUFFER => 11 | .FUNCTION => 12 | .CFUNCTION => 13
  | .ABSTRACT => 14 | .POINTER => 15

/-- An IEEE double, as far as its numeric value goes: finite doubles are
rationals, the rest are the infinities and NaN. -/
inductive JDouble
  | finite (q : ℚ)
  | inf (negative : Bool)
  | nan
  deriving DecidableEq

/-- Heap kinds of Janet values whose contents play no part in tm.c. -/
inductive RefKind
  | fiber | array | tuple | table | struct | buffer | function | pointer
  deriving DecidableEq, Repr

/-- A Janet value.  `abstract a` points to the abstract object at address `a`
of the heap; `s64 v` is the boxed 64-bit integer made by `janet_wrap_s64`
(an abstract of type core/s64); `cfunction f` is the C function named `f`. -/
inductive Janet
  | nil
  | boolean (b : Bool)
  | number (d : JDouble)
  | keyword (s : String)
  | string (s : String)
  | symbol (s : String)
  | cfunction (f : String)
  | abstract (addr : Nat)
  | s64 (v : Int)
  | ref (k : RefKind) (addr : Nat)
  deriving DecidableEq

def RefKind.type : RefKind → JanetType
  | .fiber => .FIBER | .array => .ARRAY | .tuple => .TUPLE | .table => .TABLE
  | .struct => .STRUCT | .buffer => .BUFFER | .function => .FUNCTION
  | .pointer => .POINTER

def janet_type : Janet → JanetType
  | .nil => .NIL
  | .boolean _ => .BOOLEAN
  | .number _ => .NUMBER
  | .keyword _ => .KEYWORD
  | .string _ => .STRING
  | .symbol _ => .SYMBOL
  | .cfunction _ => .CFUNCTION
  | .abstract _ => .ABSTRACT
  | .s64 _ => .ABSTRACT
  | .ref k _ => k.type

def janet_checktype (x : Janet) (t : JanetType) : Bool := janet_type x == t

def JANET_TFLAG_NUMBER : Nat := 1 <<< JanetType.NUMBER.index
def JANET_TFLAG_KEYWORD : Nat := 1 <<< JanetType.KEYWORD.index
def JANET_TFLAG_BOOLEAN : Nat := 1 <<< JanetType.BOOLEAN.index

/-- Checks `(1 << janet_type(x)) & typeflags`. -/
def janet_checktypes (x : Janet) (typeflags : Nat) : Bool :=
  ((1 <<< (janet_type x).index) &&& typeflags) != 0

/-- Checks that `x` is a keyword spelled `cstring`. -/
def janet_keyeq (x : Janet) (cstring : String) : Bool :=
  match x with
  | .keyword s => s == cstring
  | _ => false

/-- Only nil and false are falsey. -/
def janet_truthy : Janet → Bool
  | .nil => false
  | .boolean b => b
  | _ => true

def janet_wrap_nil : Janet := .nil
def janet_wrap_true : Janet := .boolean true
def janet_wrap_false : Janet := .boolean false
def janet_ckeywordv (s : String) : Janet := .keyword s
def janet_wrap_integer (x : Int) : Janet := .number (.finite x)
def janet_wrap_s64 (x : Int) : Janet := .s64 x
def janet_wrap_cfunction (f : String) : Janet := .cfunction f
def janet_wrap_abstract (addr : Nat) : Janet := .abstract addr

/-! ## struct tm -/

/-- The members of `struct tm`.  `tm_gmtoff` (a `long`) and `tm_zone`
(a `const char *`) exist only where the platform has them. -/
structure Tm where
  tm_sec : Int
  tm_min : Int
  tm_hour : Int
  tm_mday : Int
  tm_mon : Int
  tm_year : Int
  tm_wday : Int
  tm_yday : Int
  tm_isdst : Int
  tm_gmtoff : Int
  tm_zone : String
  deriving DecidableEq

/-- The zero-filled record. -/
def Tm.zero : Tm := ⟨0, 0, 0, 0, 0, 0, 0, 0, 0, 0, ""⟩

/-- A member offset `offsetof(struct tm, m)`, named by its member. -/
inductive TmOff
  | tm_sec | tm_min | tm_hour | tm_mday | tm_mon | tm_year | tm_wday | tm_yday
  | tm_isdst | tm_gmtoff | tm_zone
  deriving DecidableEq, Repr

/-- Reasons for which control leaves a function of tm.c abnormally. -/
inductive Failure
  /-- Exit through the call `janet_panicf("%s is read-only", key)` of line 119.
  The call gives the Janet `key` to the directive `%s`, which takes a C string
  (the call of line 141 uses `%v`): its behaviour is undefined in C, and whether
  a panic is raised at all is told by `Failure.observed`. -/
  | read_only (key : Janet)
  /-- Raised by `janet_panicf("expected function or number, got %t", value)`. -/
  | type_mismatch (value : Janet)
  /-- Raised by `janet_panicf("tried to write to invalid field: %v", key)`. -/
  | invalid_field (key : Janet)
  /-- The panic of `janet_fixarity` and `janet_arity`. -/
  | arity (argc : Nat)
  /-- The panic of `janet_getabstract` for slot `n`. -/
  | bad_slot (n : Nat) (x : Janet)
  /-- Dereference of a null pointer returned by the C library. -/
  | null_deref
  deriving DecidableEq

/-- What the C platform fixes and tm.c takes for granted. -/
structure Platform where
  /-- True when date.h defines `TM_GMTOFF`. -/
  TM_GMTOFF : Bool
  /-- True when date.h defines `TM_ZONE`. -/
  TM_ZONE : Bool
  /-- Result of `(int32_t) x` where C does not define the conversion (a double
  out of range, or the bits of a value that is not a number). -/
  cast_undefined : Janet → Int
  /-- An `int` read at the offset of a member that is not an `int`. -/
  load_other : Tm → TmOff → Int
  /-- A `long` read at the offset of a member that is not a `long`. -/
  load_other_long : Tm → TmOff → Int
  /-- A `char *` read at the offset of a member that is not one. -/
  load_other_cstr : Tm → TmOff → String
  /-- An `int` written at the offset of a member that is not an `int`. -/
  store_other : Tm → TmOff → Int → Tm
  /-- Contents of freshly allocated, not yet written `struct tm` memory. -/
  uninit_tm : Tm
  /-- Contents of freshly allocated, not yet written `time_t` memory. -/
  uninit_time : Int
  /-- The function `mktime`: the normalised record it leaves and the `time_t`
  it returns. -/
  mktime : Tm → Tm × Int
  /-- The function `gmtime`; `none` is the null pointer. -/
  gmtime : Int → Option Tm
  /-- The function `localtime`; `none` is the null pointer. -/
  localtime : Int → Option Tm
  /-- What the formatter of `janet_panicf` finds when the directive `%s`, which
  takes a `const char *`, is given a Janet value: `none` when the word it reads
  is no valid address and the process ends (a nan-boxed build, where the word
  is the tagged value), `some s` for the bytes it finds where formatting goes
  through. -/
  format_s_janet : Janet → Option String

/-- Truncation toward zero of a rational. -/
def ratTrunc (q : ℚ) : Int := Int.tdiv q.num q.den

/-- The macro `janet_unwrap_integer(x)`, `(int32_t) janet_unwrap_number(x)`:
a double is truncated toward zero when the result fits. -/
def janet_unwrap_integer (pf : Platform) (x : Janet) : Int :=
  match x with
  | .number (.finite q) =>
    if INT32_MIN ≤ ratTrunc q ∧ ratTrunc q ≤ INT32_MAX then ratTrunc q
    else wrap32 (pf.cast_undefined x)
  | _ => wrap32 (pf.cast_undefined x)

/-- Load `*((int*)(p + off))`. -/
def Tm.load (pf : Platform) (p : Tm) : TmOff → Int
  | .tm_sec => p.tm_sec
  | .tm_min => p.tm_min
  | .tm_hour => p.tm_hour
  | .tm_mday => p.tm_mday
  | .tm_mon => p.tm_mon
  | .tm_year => p.tm_year
  | .tm_wday => p.tm_wday
  | .tm_yday => p.tm_yday
  | .tm_isdst => p.tm_isdst
  | off => pf.load_other p off

/-- Load `*((long*)(p + off))`. -/
def Tm.load_long (pf : Platform) (p : Tm) : TmOff → Int
  | .tm_gmtoff => p.tm_gmtoff
  | off => pf.load_other_long p off

/-- Load `*((const char **)(p + off))`. -/
def Tm.load_cstr (pf : Platform) (p : Tm) : TmOff → String
  | .tm_zone => p.tm_zone
  | off => pf.load_other_cstr p off

/-- Store `*((int*)(p + off)) = v`. -/
def Tm.store (pf : Platform) (p : Tm) (off : TmOff) (v : Int) : Tm :=
  match off with
  | .tm_sec => { p with tm_sec := v }
  | .tm_min => { p with tm_min := v }
  | .tm_hour => { p with tm_hour := v }
  | .tm_mday => { p with tm_mday := v }
  | .tm_mon => { p with tm_mon := v }
  | .tm_year => { p with tm_year := v }
  | .tm_wday => { p with tm_wday := v }
  | .tm_yday => { p with tm_yday := v }
  | .tm_isdst => { p with tm_isdst := v }
  | off => pf.store_other p off v

/-! ## Tables -/

/-- An entry of `jd_tm_methods`: name and C function. -/
structure JanetMethod where
  name : String
  cfun : String

/-- The table `jd_tm_methods`, without its `{NULL, NULL}` terminator. -/
def jd_tm_methods : List JanetMethod :=
  [ ⟨"mktime", "jd_mktime"⟩,
    ⟨"mktime!", "jd_mktime_inplace"⟩,
    ⟨"localtime", "jd_time_localtime"⟩,
    ⟨"localtime!", "jd_time_localtime_inplace"⟩,
    ⟨"utc", "jd_time_utc"⟩,
    ⟨"utc!", "jd_time_utc_inplace"⟩,
    ⟨"strftime", "jd_strftime"⟩ ]

/-- An entry of `jd_tm_keys`. -/
structure jd_tm_key where
  key : String
  off : TmOff
  deriving DecidableEq

/-- The table `jd_tm_keys`, without its `{NULL, 0}` terminator; the last two
entries are compiled in only where the platform has the members. -/
def jd_tm_keys (pf : Platform) : List jd_tm_key :=
  [ ⟨"sec", .tm_sec⟩,
    ⟨"min", .tm_min⟩,
    ⟨"hour", .tm_hour⟩,
    ⟨"mday", .tm_mday⟩,
    ⟨"mon", .tm_mon⟩,
    ⟨"year", .tm_year⟩,
    ⟨"wday", .tm_wday⟩,
    ⟨"yday", .tm_yday⟩,
    ⟨"isdst", .tm_isdst⟩ ]
  ++ (if pf.TM_GMTOFF then [⟨"gmtoff", .tm_gmtoff⟩] else [])
  ++ (if pf.TM_ZONE then [⟨"zone", .tm_zone⟩] else [])

/-- The host routine `janet_getmethod(method, methods, out)`: the first entry
named `method` is written to `*out` and 1 is returned; otherwise `*out` is
left alone and 0 is returned. -/
def janet_getmethod (method : String) (methods : List JanetMethod) (out : Janet) :
    Int × Janet :=
  match methods with
  | [] => (0, out)
  | m :: rest =>
    if method == m.name then (1, janet_wrap_cfunction m.cfun)
    else janet_getmethod method rest out

/-! ## The accessor protocol -/

/-- Memory left behind by a function together with its normal result or the
reason of its abnormal exit. -/
structure Outcome (σ α : Type) where
  state : σ
  result : Except Failure α

deriving instance DecidableEq for Except

deriving instance DecidableEq for Outcome

/-- What `jd_tm_get` leaves: the record, the returned `int` and `*out`. -/
structure GetResult where
  tm : Tm
  ret : Int
  out : Janet
  deriving DecidableEq

/-- The `while (ptr->key)` loop of `jd_tm_get` and the `return` after it;
the result is the returned `int` and the final `*out`. -/
def jd_tm_get_loop (pf : Platform) (p : Tm) (key out : Janet) : List jd_tm_key → Int × Janet
  | [] => ((if janet_checktype out .NIL then 1 else 0), out)
  | ptr :: rest =>
    if janet_keyeq key ptr.key then
      if pf.TM_GMTOFF && janet_keyeq key "gmtoff" then
        (1, janet_wrap_s64 (p.load_long pf ptr.off))
      else if pf.TM_ZONE && janet_keyeq key "zone" then
        (1, janet_ckeywordv (p.load_cstr pf ptr.off))
      else
        let val := p.load pf ptr.off
        if janet_keyeq key "year" then
          (1, janet_wrap_integer (wrap32 (val + 1900)))
        else if janet_keyeq key "isdst" then
          (1, if val ≠ 0 then (if val > 0 then janet_wrap_true else janet_ckeywordv "detect")
              else janet_wrap_false)
        else
          (1, janet_wrap_integer val)
    else jd_tm_get_loop pf p key out rest

/-- The getter `jd_tm_get(p, key, out)`.  The match on `key` is the test
`janet_checktype(key, JANET_KEYWORD)` followed by `janet_unwrap_keyword`. -/
def jd_tm_get (pf : Platform) (p : Tm) (key out : Janet) : GetResult :=
  match key with
  | .keyword method =>
    let m := janet_getmethod method jd_tm_methods out
    if m.1 ≠ 0 then ⟨p, 1, m.2⟩
    else
      let r := jd_tm_get_loop pf p key m.2 (jd_tm_keys pf)
      ⟨p, r.1, r.2⟩
  | _ => ⟨p, 0, out⟩

/-- How the host's `janet_get` consumes a getter: the value written to `*out`
when the getter returns non-zero, nil otherwise. -/
def janet_get_result (r : GetResult) : Janet :=
  if r.ret ≠ 0 then r.out else janet_wrap_nil

/-- The `while (ptr->key)` loop of `jd_tm_next`; `first` is what the function
returns after the loop. -/
def jd_tm_next_loop (first key : Janet) : List jd_tm_key → Janet
  | [] => first
  | ptr :: rest =>
    if janet_keyeq key ptr.key then
      match rest with
      | nxt :: _ => janet_ckeywordv nxt.key
      | [] => janet_wrap_nil
    else jd_tm_next_loop first key rest

/-- The enumerator `jd_tm_next(p, key)`; `jd_tm_keys[0]` is the head of the
table. -/
def jd_tm_next (pf : Platform) (_p : Tm) (key : Janet) : Janet :=
  jd_tm_next_loop (janet_ckeywordv ((jd_tm_keys pf).head (by simp [jd_tm_keys])).key) key
    (jd_tm_keys pf)

/-- The `while (ptr->key)` loop of `jd_tm_put` and the panic after it. -/
def jd_tm_put_loop (pf : Platform) (data : Tm) (key value : Janet) :
    List jd_tm_key → Outcome Tm Unit
  | [] => ⟨data, .error (.invalid_field key)⟩
  | ptr :: rest =>
    if janet_keyeq key ptr.key then
      if janet_keyeq key "year" then
        ⟨data.store pf ptr.off (wrap32 (janet_unwrap_integer pf value - 1900)), .ok ()⟩
      else if janet_keyeq key "isdst" then
        ⟨data.store pf ptr.off
          (if janet_keyeq value "detect" then -1 else (if janet_truthy value then 1 else 0)),
          .ok ()⟩
      else
        ⟨data.store pf ptr.off (janet_unwrap_integer pf value), .ok ()⟩
    else jd_tm_put_loop pf data key value rest

/-- The setter `jd_tm_put(data, key, value)`.  The failure of the first
branch is the exit through the call of line 119, which formats the Janet key
with `%s`; what the host sees of it is given by `jd_tm_put_observed`. -/
def jd_tm_put (pf : Platform) (data : Tm) (key value : Janet) : Outcome Tm Unit :=
  if (pf.TM_GMTOFF && janet_keyeq key "gmtoff") || (pf.TM_ZONE && janet_keyeq key "zone") then
    ⟨data, .error (.read_only key)⟩
  else if !janet_checktypes value
      (JANET_TFLAG_NUMBER ||| JANET_TFLAG_KEYWORD ||| JANET_TFLAG_BOOLEAN) then
    ⟨data, .error (.type_mismatch value)⟩
  else
    jd_tm_put_loop pf data key value (jd_tm_keys pf)

/-- How an exit of a function shows to the host: a normal return, a Janet
panic that the host can catch, or the end of the process. -/
inductive Observed
  | returned
  | panic (e : Failure)
  | crash
  deriving DecidableEq

/-- What the host observes of an abnormal exit.  The call of line 119 raises
its panic only where the formatter survives the Janet it is given for `%s`;
a null dereference ends the process; the other calls of `janet_panicf` use
directives that take a Janet and raise their panic. -/
def Failure.observed (pf : Platform) : Failure → Observed
  | .read_only key =>
    match pf.format_s_janet key with
    | some _ => .panic (.read_only key)
    | none => .crash
  | .null_deref => .crash
  | e => .panic e

/-- What the host observes of a call of `jd_tm_put`. -/
def jd_tm_put_observed (pf : Platform) (data : Tm) (key value : Janet) : Observed :=
  match (jd_tm_put pf data key value).result with
  | .ok _ => .returned
  | .error e => e.observed pf

/-- The host's enumeration of a record: `jd_tm_next` is applied to the key it
last returned, starting from `key`, until it returns nil; the keys returned
before nil are collected.  `none` when nil has not come after `fuel` calls. -/
def jd_tm_enumerate (pf : Platform) (p : Tm) : Nat → Janet → Option (List Janet)
  | 0, _ => none
  | fuel + 1, key =>
    match jd_tm_next pf p key with
    | .nil => some []
    | k => (jd_tm_enumerate pf p fuel k).map (fun ks => k :: ks)

/-! ## Conversion functions -/

/-- An abstract object of the Janet heap: a `struct tm` of type `jd_tm_t`, a
`time_t` of the time type of the library, or an abstract of some other type. -/
inductive AbstractObj
  | tm (v : Tm)
  | time (v : Int)
  | other (type_name : String)
  deriving DecidableEq

/-- The abstract objects allocated so far; an address is a position. -/
abbrev Heap := List AbstractObj

/-- The host routine `janet_abstract`: a new object at a new address. -/
def janet_abstract (h : Heap) (init : AbstractObj) : Heap × Nat :=
  (h ++ [init], h.length)

/-- The struct `*tm` behind a pointer obtained from `jd_gettm`. -/
def Heap.load_tm (pf : Platform) (h : Heap) (addr : Nat) : Tm :=
  match h[addr]? with
  | some (.tm v) => v
  | _ => pf.uninit_tm

/-- Assignment `*ptr = obj` to the object at `addr`. -/
def Heap.store (h : Heap) (addr : Nat) (obj : AbstractObj) : Heap :=
  h.set addr obj

/-- The host routine `janet_getabstract(argv, n, &jd_tm_t)` behind `jd_gettm`:
the address of the record when `argv[n]` is an abstract of type `jd_tm_t`,
a panic otherwise. -/
def jd_gettm (h : Heap) (argv : List Janet) (n : Nat) : Except Failure Nat :=
  let x := argv.getD n .nil
  if !janet_checktype x .ABSTRACT then .error (.bad_slot n x)
  else
    match x with
    | .abstract addr =>
      match h[addr]? with
      | some (.tm _) => .ok addr
      | _ => .error (.bad_slot n x)
    | _ => .error (.bad_slot n x)

/-- Allocation `jd_maketm()`: `janet_abstract(&jd_tm_t, sizeof(struct tm))`. -/
def jd_maketm (pf : Platform) (h : Heap) : Heap × Nat :=
  janet_abstract h (.tm pf.uninit_tm)

/-- Modelled from the spec: `jd_maketime` is defined in another file of the
library; the spec describes AbsoluteTime as a wrapper of the scalar
time-since-epoch value, so it allocates a new abstract holding a `time_t`. -/
def jd_maketime (pf : Platform) (h : Heap) : Heap × Nat :=
  janet_abstract h (.time pf.uninit_time)

/-- The helper `jd_opttm(argv, argc, n)`: `none` is the null pointer. -/
def jd_opttm (h : Heap) (argv : List Janet) (n : Nat) : Except Failure (Option Nat) :=
  if n ≥ argv.length || janet_checktype (argv.getD n .nil) .NIL then .ok none
  else
    match jd_gettm h argv n with
    | .ok addr => .ok (some addr)
    | .error e => .error e

/-- The function `jd_mktime`. -/
def jd_mktime (pf : Platform) (h : Heap) (argv : List Janet) : Outcome Heap Janet :=
  if argv.length ≠ 1 then ⟨h, .error (.arity argv.length)⟩
  else
    match jd_gettm h argv 0 with
    | .error e => ⟨h, .error e⟩
    | .ok tm =>
      let a := jd_maketm pf h
      let nw := a.2
      let h1 := a.1.store nw (.tm (a.1.load_tm pf tm))
      let b := jd_maketime pf h1
      let time := b.2
      let r := pf.mktime (b.1.load_tm pf nw)
      let h2 := (b.1.store nw (.tm r.1)).store time (.time r.2)
      ⟨h2, .ok (janet_wrap_abstract time)⟩

/-- The function `jd_mktime_inplace`. -/
def jd_mktime_inplace (pf : Platform) (h : Heap) (argv : List Janet) : Outcome Heap Janet :=
  if argv.length ≠ 1 then ⟨h, .error (.arity argv.length)⟩
  else
    match jd_gettm h argv 0 with
    | .error e => ⟨h, .error e⟩
    | .ok tm =>
      let b := jd_maketime pf h
      let time := b.2
      let r := pf.mktime (b.1.load_tm pf tm)
      let h2 := (b.1.store tm (.tm r.1)).store time (.time r.2)
      ⟨h2, .ok (janet_wrap_abstract time)⟩

/-- The common body of `jd_time_utc` and `jd_time_localtime`, which differ in
the C library function `breakdown` (`gmtime` or `localtime`) only; `now` is
what `time(NULL)` returns. -/
def jd_time_convert (pf : Platform) (breakdown : Int → Option Tm) (now : Int)
    (h : Heap) (argv : List Janet) : Outcome Heap Janet :=
  if argv.length > 1 then ⟨h, .error (.arity argv.length)⟩
  else
    match jd_opttm h argv 0 with
    | .error e => ⟨h, .error e⟩
    | .ok tm =>
      let a := jd_maketm pf h
      let nw := a.2
      let s : Heap × Int :=
        match tm with
        | some tm =>
          let h1 := a.1.store nw (.tm (a.1.load_tm pf tm))
          let r := pf.mktime (h1.load_tm pf nw)
          (h1.store nw (.tm r.1), r.2)
        | none => (a.1, now)
      match breakdown s.2 with
      | none => ⟨s.1, .error .null_deref⟩
      | some v => ⟨s.1.store nw (.tm v), .ok (janet_wrap_abstract nw)⟩

/-- The function `jd_time_utc`. -/
def jd_time_utc (pf : Platform) (now : Int) (h : Heap) (argv : List Janet) :
    Outcome Heap Janet :=
  jd_time_convert pf pf.gmtime now h argv

/-- The function `jd_time_localtime`. -/
def jd_time_localtime (pf : Platform) (now : Int) (h : Heap) (argv : List Janet) :
    Outcome Heap Janet :=
  jd_time_convert pf pf.localtime now h argv

/-- The common body of `jd_time_utc_inplace` and `jd_time_localtime_inplace`. -/
def jd_time_convert_inplace (pf : Platform) (breakdown : Int → Option Tm)
    (h : Heap) (argv : List Janet) : Outcome Heap Janet :=
  if argv.length ≠ 1 then ⟨h, .error (.arity argv.length)⟩
  else
    match jd_gettm h argv 0 with
    | .error e => ⟨h, .error e⟩
    | .ok tm =>
      let r := pf.mktime (h.load_tm pf tm)
      let h1 := h.store tm (.tm r.1)
      match breakdown r.2 with
      | none => ⟨h1, .error .null_deref⟩
      | some v => ⟨h1.store tm (.tm v), .ok (janet_wrap_abstract tm)⟩

/-- The function `jd_time_utc_inplace`. -/
def jd_time_utc_inplace (pf : Platform) (h : Heap) (argv : List Janet) : Outcome Heap Janet :=
  jd_time_convert_inplace pf pf.gmtime h argv

/-- The function `jd_time_localtime_inplace`. -/
def jd_time_localtime_inplace (pf : Platform) (h : Heap) (argv : List Janet) :
    Outcome Heap Janet :=
  jd_time_convert_inplace pf pf.localtime h argv

/-- The abstract object a function returned, looked up in the heap it left;
`none` when it did not return an abstract. -/
def Outcome.returned_obj (o : Outcome Heap Janet) : Option AbstractObj :=
  match o.result with
  | .ok (.abstract addr) => o.state[addr]?
  | _ => none

/-! ## A reference platform

A C library running with TZ=UTC on the proleptic Gregorian calendar, used to
evaluate the functions above on concrete records.  It is not part of tm.c. -/

/-- Days from 1970-01-01 to the civil date `y`-`m`-`d` (`m` from 1 to 12). -/
def days_from_civil (y m d : Int) : Int :=
  let y1 := if m ≤ 2 then y - 1 else y
  let era := y1 / 400
  let yoe := y1 - era * 400
  let mp := if m > 2 then m - 3 else m + 9
  let doy := (153 * mp + 2) / 5 + d - 1
  let doe := yoe * 365 + yoe / 4 - yoe / 100 + doy
  era * 146097 + doe - 719468

/-- The civil date (year, month from 1 to 12, day) of a day number. -/
def civil_from_days (z : Int) : Int × Int × Int :=
  let z1 := z + 719468
  let era := z1 / 146097
  let doe := z1 - era * 146097
  let yoe := (doe - doe / 1460 + doe / 36524 - doe / 146096) / 365
  let doy := doe - (365 * yoe + yoe / 4 - yoe / 100)
  let mp := (5 * doy + 2) / 153
  let d := doy - (153 * mp + 2) / 5 + 1
  let m := if mp < 10 then mp + 3 else mp - 9
  (yoe + era * 400 + (if m ≤ 2 then 1 else 0), m, d)

/-- Calendar breakdown of an epoch in UTC. -/
def utc_breakdown (t : Int) : Tm :=
  let days := t / 86400
  let rem := t % 86400
  let c := civil_from_days days
  { tm_sec := rem % 60, tm_min := rem % 3600 / 60, tm_hour := rem / 3600,
    tm_mday := c.2.2, tm_mon := c.2.1 - 1, tm_year := c.1 - 1900,
    tm_wday := (days + 4) % 7, tm_yday := days - days_from_civil c.1 1 1,
    tm_isdst := 0, tm_gmtoff := 0, tm_zone := "UTC" }

/-- The function `gmtime` of the reference platform: null when the year does
not fit an `int`. -/
def utc_gmtime (t : Int) : Option Tm :=
  if INT32_MIN ≤ (utc_breakdown t).tm_year ∧ (utc_breakdown t).tm_year ≤ INT32_MAX then
    some (utc_breakdown t)
  else none

/-- The function `mktime` of the reference platform: the epoch of the fields
read as UTC, and the record normalised; -1 and the record as it was when the
result is not representable. -/
def utc_mktime (p : Tm) : Tm × Int :=
  let y := p.tm_year + 1900 + p.tm_mon / 12
  let m := p.tm_mon % 12
  let days := days_from_civil y (m + 1) 1 + (p.tm_mday - 1)
  let t := days * 86400 + p.tm_hour * 3600 + p.tm_min * 60 + p.tm_sec
  match utc_gmtime t with
  | some v => (v, t)
  | none => (p, -1)

/-- The reference platform, with or without the optional members; the
undefined conversions are those of a nan-boxed x86-64 build. -/
def utc_platform (gmtoff zone : Bool) : Platform where
  TM_GMTOFF := gmtoff
  TM_ZONE := zone
  cast_undefined := fun _ => INT32_MIN
  load_other := fun _ _ => 0
  load_other_long := fun _ _ => 0
  load_other_cstr := fun _ _ => ""
  store_other := fun p _ _ => p
  uninit_tm := Tm.zero
  uninit_time := 0
  mktime := utc_mktime
  gmtime := utc_gmtime
  localtime := utc_gmtime
  format_s_janet := fun _ => none

/-- The record 2000-01-01 00:00:00 with the derived members left zero. -/
def tm_y2k : Tm := { Tm.zero with tm_mday := 1, tm_year := 100 }

/-- The record with the out-of-range date January 32nd, 2000. -/
def tm_jan32 : Tm := { Tm.zero with tm_mday := 32, tm_year := 100 }

/-! ## Comparison and rendering -/

/-- The C library's `difftime(lhv, rhv)`, the difference as a double; the
rounding of differences beyond the 53 bits of a double is left out. -/
def difftime (lhv rhv : Int) : JDouble := .finite ((lhv - rhv : Int) : ℚ)

/-- Conversion of a double to `int`, as done on the value a function declared
to return `int` returns: truncation toward zero when the result fits. -/
def double_to_int (pf : Platform) (d : JDouble) : Int :=
  match d with
  | .finite q =>
    if INT32_MIN ≤ ratTrunc q ∧ ratTrunc q ≤ INT32_MAX then ratTrunc q
    else wrap32 (pf.cast_undefined (.number d))
  | _ => wrap32 (pf.cast_undefined (.number d))

/-- What `jd_tm_compare` leaves: the two records behind its pointer arguments
and the returned `int`. -/
structure CompareResult where
  lhs : Tm
  rhs : Tm
  ret : Int
  deriving DecidableEq

/-- The comparator `jd_tm_compare(lhs, rhs)`; `lhp` and `rhp` are its local
copies, which `mktime` normalises. -/
def jd_tm_compare (pf : Platform) (lhs rhs : Tm) : CompareResult :=
  let lhp := lhs
  let rhp := rhs
  let l := pf.mktime lhp
  let r := pf.mktime rhp
  let lhv := l.2
  let rhv := r.2
  ⟨lhs, rhs, double_to_int pf (difftime lhv rhv)⟩

/-- The parts of the host and of the library that `jd_strftime` calls and
tm.c does not define. -/
structure StrftimeEnv where
  /-- The bytes of the Janet buffer at an address. -/
  buffer_bytes : Nat → String
  /-- Modelled from the spec: `strftime_buffer(format, tm, NULL)`, defined in
  another file of the library, renders the record by the platform's
  calendar-to-text routine; the text of the buffer it returns. -/
  strftime_buffer : String → Tm → String

/-- An entry of `strftime_formats`. -/
structure strftime_format where
  keyword : String
  format : String

/-- The table `strftime_formats`, which holds its terminator only. -/
def strftime_formats : List strftime_format := []

/-- The host routine `janet_getcbytes(argv, n)`: the bytes of a string,
symbol, keyword or buffer; a panic for another type or for bytes with an
embedded zero. -/
def janet_getcbytes (env : StrftimeEnv) (argv : List Janet) (n : Nat) : Except Failure String :=
  let x := argv.getD n .nil
  let bytes : Option String :=
    match x with
    | .string s => some s
    | .symbol s => some s
    | .keyword s => some s
    | .ref .buffer addr => some (env.buffer_bytes addr)
    | _ => none
  match bytes with
  | some s => if s.contains (Char.ofNat 0) then .error (.bad_slot n x) else .ok s
  | none => .error (.bad_slot n x)

/-- The preset lookup of `jd_strftime`: the `while (ptr->keyword)` loop. -/
def strftime_preset (x : Janet) : List strftime_format → Option String
  | [] => none
  | ptr :: rest => if janet_keyeq x ptr.keyword then some ptr.format else strftime_preset x rest

/-- The function `jd_strftime`; the normal result is the text of the buffer
it returns. -/
def jd_strftime (pf : Platform) (env : StrftimeEnv) (h : Heap) (argv : List Janet) :
    Outcome Heap String :=
  if argv.length ≠ 2 then ⟨h, .error (.arity argv.length)⟩
  else
    match jd_gettm h argv 0 with
    | .error e => ⟨h, .error e⟩
    | .ok tm =>
      let preset : Option String :=
        if janet_checktype (argv.getD 1 .nil) .KEYWORD then
          strftime_preset (argv.getD 1 .nil) strftime_formats
        else none
      match preset with
      | some format => ⟨h, .ok (env.strftime_buffer format (h.load_tm pf tm))⟩
      | none =>
        match janet_getcbytes env argv 1 with
        | .error e => ⟨h, .error e⟩
        | .ok format => ⟨h, .ok (env.strftime_buffer format (h.load_tm pf tm))⟩

/-! ## Composition and a second reference platform -/

/-- Call `g` with the value a previous call returned as its only argument,
in the heap that call left; a failure of the previous call is passed on. -/
def Outcome.and_then (o : Outcome Heap Janet) (g : Heap → List Janet → Outcome Heap Janet) :
    Outcome Heap Janet :=
  match o.result with
  | .ok v => g o.state [v]
  | .error e => ⟨o.state, .error e⟩

/-- A lookup that tries the field table first and falls back to the operation
table: the order opposite to that of `jd_tm_get`. -/
def jd_tm_get_fields_first (pf : Platform) (p : Tm) (key out : Janet) : GetResult :=
  match key with
  | .keyword method =>
    if (jd_tm_keys pf).any (fun k => janet_keyeq key k.key) then
      let r := jd_tm_get_loop pf p key out (jd_tm_keys pf)
      ⟨p, r.1, r.2⟩
    else
      let m := janet_getmethod method jd_tm_methods out
      if m.1 ≠ 0 then ⟨p, 1, m.2⟩
      else ⟨p, (if janet_checktype m.2 .NIL then 1 else 0), m.2⟩
  | _ => ⟨p, 0, out⟩

/-- The function `localtime` of a zone that is always `off` seconds east of
UTC. -/
def offset_localtime (off : Int) (t : Int) : Option Tm :=
  match utc_gmtime (t + off) with
  | some v => some { v with tm_gmtoff := off, tm_zone := "LOC" }
  | none => none

/-- The function `mktime` of that zone: the fields are read as local time;
-1 and the record as it was when the result is not representable. -/
def offset_mktime (off : Int) (p : Tm) : Tm × Int :=
  let y := p.tm_year + 1900 + p.tm_mon / 12
  let m := p.tm_mon % 12
  let days := days_from_civil y (m + 1) 1 + (p.tm_mday - 1)
  let t := days * 86400 + p.tm_hour * 3600 + p.tm_min * 60 + p.tm_sec - off
  match offset_localtime off t with
  | some v => (v, t)
  | none => (p, -1)

/-- A C library running in a zone always `off` seconds east of UTC, without
daylight saving time. -/
def offset_platform (off : Int) : Platform where
  TM_GMTOFF := true
  TM_ZONE := true
  cast_undefined := fun _ => INT32_MIN
  load_other := fun _ _ => 0
  load_other_long := fun _ _ => 0
  load_other_cstr := fun _ _ => ""
  store_other := fun p _ _ => p
  uninit_tm := Tm.zero
  uninit_time := 0
  mktime := offset_mktime off
  gmtime := utc_gmtime
  localtime := offset_localtime off
  format_s_janet := fun _ => none

/-- The record 2040-01-01 00:00:00. -/
def tm_2040 : Tm := { Tm.zero with tm_mday := 1, tm_year := 140 }

/-- The record 1970-01-01 00:00:00. -/
def tm_1970 : Tm := { Tm.zero with tm_mday := 1, tm_year := 70 }

/-! ## Arithmetic lemmas -/

theorem wrap32_isInt32 (x : Int) : isInt32 (wrap32 x) := by
  unfold isInt32 wrap32 INT32_MIN INT32_MAX
  omega

theorem wrap32_of_isInt32 {x : Int} (h : isInt32 x) : wrap32 x = x := by
  unfold isInt32 INT32_MIN INT32_MAX at h
  unfold wrap32
  omega

theorem wrap32_sub_add (v : Int) (h : isInt32 v) : wrap32 (wrap32 (v - 1900) + 1900) = v := by
  unfold isInt32 INT32_MIN INT32_MAX at h
  unfold wrap32
  omega

theorem ratTrunc_intCast (v : Int) : ratTrunc (v : ℚ) = v := by
  simp [ratTrunc]

theorem janet_unwrap_integer_wrap (pf : Platform) {v : Int} (h : isInt32 v) :
    janet_unwrap_integer pf (janet_wrap_integer v) = v := by
  have h2 := h
  unfold isInt32 at h2
  simp [janet_unwrap_integer, janet_wrap_integer, ratTrunc_intCast, h2.1, h2.2]

/-- The type mask of `jd_tm_put` lets through numbers, keywords and booleans. -/
theorem janet_checktypes_mask (x : Janet) :
    janet_checktypes x (JANET_TFLAG_NUMBER ||| JANET_TFLAG_KEYWORD ||| JANET_TFLAG_BOOLEAN)
      = (janet_type x == .NUMBER || janet_type x == .KEYWORD || janet_type x == .BOOLEAN) := by
  unfold janet_checktypes
  cases janet_type x <;> decide

theorem janet_checktypes_integer (v : Int) :
    janet_checktypes (janet_wrap_integer v)
      (JANET_TFLAG_NUMBER ||| JANET_TFLAG_KEYWORD ||| JANET_TFLAG_BOOLEAN) = true := by
  rw [janet_checktypes_mask]
  rfl

theorem janet_keyeq_keyword (s c : String) : janet_keyeq (.keyword s) c = (s == c) := rfl

/-! ## Reading back what was written -/

/-- C1: for every platform, record `r`, writable integer field `f` among sec, min,
hour, mday, mon, year, wday, yday and 32-bit integer `v`, `jd_tm_put` succeeds
and `jd_tm_get` on the record it leaves returns 1 with `*out = v`, leaving the
record as it is; for year the member holds `v - 1900` reduced to 32 bits, for
the other fields it holds `v`. -/
theorem jd_tm_put_get_roundtrip (pf : Platform) (r : Tm) (f : String) (v : Int) (out : Janet)
    (hf : f ∈ ["sec", "min", "hour", "mday", "mon", "year", "wday", "yday"])
    (hv : isInt32 v) :
    (jd_tm_put pf r (.keyword f) (janet_wrap_integer v)).result = .ok () ∧
    jd_tm_get pf (jd_tm_put pf r (.keyword f) (janet_wrap_integer v)).state (.keyword f) out
      = ⟨(jd_tm_put pf r (.keyword f) (janet_wrap_integer v)).state, 1, janet_wrap_integer v⟩ ∧
    (f = "year" →
      (jd_tm_put pf r (.keyword f) (janet_wrap_integer v)).state
        = { r with tm_year := wrap32 (v - 1900) }) := by
  have hu := janet_unwrap_integer_wrap pf hv
  have hw := wrap32_sub_add v hv
  simp only [List.mem_cons, List.mem_singleton, List.mem_nil_iff, or_false] at hf
  rcases hf with rfl | rfl | rfl | rfl | rfl | rfl | rfl | rfl <;>
    simp [jd_tm_put, jd_tm_put_loop, jd_tm_get, jd_tm_get_loop, jd_tm_keys, janet_keyeq,
      janet_getmethod, jd_tm_methods, janet_checktypes_integer, Tm.store, Tm.load, hu, hw]

theorem jd_tm_put_get_roundtrip_witness :
    "year" ∈ ["sec", "min", "hour", "mday", "mon", "year", "wday", "yday"] ∧ isInt32 2024 ∧
    (jd_tm_put (utc_platform true true) Tm.zero (.keyword "year")
      (janet_wrap_integer 2024)).result = .ok () ∧
    jd_tm_get (utc_platform true true)
        (jd_tm_put (utc_platform true true) Tm.zero (.keyword "year")
          (janet_wrap_integer 2024)).state (.keyword "year") .nil
      = ⟨(jd_tm_put (utc_platform true true) Tm.zero (.keyword "year")
          (janet_wrap_integer 2024)).state, 1, janet_wrap_integer 2024⟩ ∧
    ("year" = "year" →
      (jd_tm_put (utc_platform true true) Tm.zero (.keyword "year")
        (janet_wrap_integer 2024)).state = { Tm.zero with tm_year := 124 }) :=
  ⟨by decide, by decide,
    jd_tm_put_get_roundtrip (utc_platform true true) Tm.zero "year" 2024 .nil
      (by decide) (by decide)⟩

/-- The value for which `jd_tm_get` reads the member `tm_isdst` back. -/
theorem jd_tm_get_isdst (pf : Platform) (r : Tm) (out : Janet) :
    jd_tm_get pf r (.keyword "isdst") out
      = ⟨r, 1, if r.tm_isdst ≠ 0 then
                 (if r.tm_isdst > 0 then janet_wrap_true else janet_ckeywordv "detect")
               else janet_wrap_false⟩ := by
  simp [jd_tm_get, jd_tm_get_loop, jd_tm_keys, janet_keyeq, janet_getmethod, jd_tm_methods,
    Tm.load]

/-- What `jd_tm_put` does with the key isdst and a value that passes the type
mask. -/
theorem put_isdst_outcome (pf : Platform) (r : Tm) (v : Janet)
    (hv : janet_type v = .NUMBER ∨ janet_type v = .KEYWORD ∨ janet_type v = .BOOLEAN) :
    jd_tm_put pf r (.keyword "isdst") v
      = ⟨{ r with tm_isdst := if v = .keyword "detect" then -1
                              else (if janet_truthy v then 1 else 0) }, .ok ()⟩ := by
  have hm : janet_checktypes v
      (JANET_TFLAG_NUMBER ||| JANET_TFLAG_KEYWORD ||| JANET_TFLAG_BOOLEAN) = true := by
    rw [janet_checktypes_mask]
    rcases hv with h | h | h <;> simp [h]
  have hk : janet_keyeq v "detect" = decide (v = .keyword "detect") := by
    cases v <;> simp [janet_keyeq]
    rfl
  simp [jd_tm_put, jd_tm_put_loop, jd_tm_keys, janet_keyeq_keyword, hm, Tm.store, hk]

/-- C2: for every platform, record and value accepted by the type mask (a
number, a keyword or a boolean), `jd_tm_put` with key isdst succeeds and stores
-1 for the keyword detect, otherwise 1 for a truthy value and 0 for a falsey
one, changing no other member; `jd_tm_get` then returns detect, true and false
respectively.  Every number and every keyword other than detect stores 1 and
reads back as true; true, false and detect read back as themselves. -/
theorem jd_tm_put_isdst (pf : Platform) (r : Tm) (v : Janet) (out : Janet)
    (hv : janet_type v = .NUMBER ∨ janet_type v = .KEYWORD ∨ janet_type v = .BOOLEAN) :
    jd_tm_put pf r (.keyword "isdst") v
      = ⟨{ r with tm_isdst := if v = .keyword "detect" then -1
                              else (if janet_truthy v then 1 else 0) }, .ok ()⟩ ∧
    jd_tm_get pf (jd_tm_put pf r (.keyword "isdst") v).state (.keyword "isdst") out
      = ⟨(jd_tm_put pf r (.keyword "isdst") v).state, 1,
          if v = .keyword "detect" then .keyword "detect" else .boolean (janet_truthy v)⟩ ∧
    (∀ d : JDouble,
      (jd_tm_put pf r (.keyword "isdst") (.number d)).state.tm_isdst = 1 ∧
      (jd_tm_get pf (jd_tm_put pf r (.keyword "isdst") (.number d)).state
        (.keyword "isdst") out).out = .boolean true) ∧
    (∀ s : String, s ≠ "detect" →
      (jd_tm_put pf r (.keyword "isdst") (.keyword s)).state.tm_isdst = 1 ∧
      (jd_tm_get pf (jd_tm_put pf r (.keyword "isdst") (.keyword s)).state
        (.keyword "isdst") out).out = .boolean true) ∧
    (jd_tm_get pf (jd_tm_put pf r (.keyword "isdst") (.boolean true)).state
      (.keyword "isdst") out).out = .boolean true ∧
    (jd_tm_get pf (jd_tm_put pf r (.keyword "isdst") (.boolean false)).state
      (.keyword "isdst") out).out = .boolean false ∧
    (jd_tm_get pf (jd_tm_put pf r (.keyword "isdst") (.keyword "detect")).state
      (.keyword "isdst") out).out = .keyword "detect" := by
  have hput := put_isdst_outcome pf r v hv
  have ht := put_isdst_outcome pf r (.boolean true) (Or.inr (Or.inr rfl))
  have hf := put_isdst_outcome pf r (.boolean false) (Or.inr (Or.inr rfl))
  have hd := put_isdst_outcome pf r (.keyword "detect") (Or.inr (Or.inl rfl))
  refine ⟨hput, ?_, ?_, ?_, ?_, ?_, ?_⟩
  · rw [jd_tm_get_isdst, hput]
    by_cases h : v = .keyword "detect"
    · simp [h, janet_ckeywordv]
    · cases hb : janet_truthy v <;> simp [h, hb, janet_wrap_true, janet_wrap_false]
  · intro d
    rw [jd_tm_get_isdst, put_isdst_outcome pf r (.number d) (Or.inl rfl)]
    simp [janet_truthy, janet_wrap_true]
  · intro s hs
    rw [jd_tm_get_isdst, put_isdst_outcome pf r (.keyword s) (Or.inr (Or.inl rfl))]
    simp [janet_truthy, janet_wrap_true, hs]
  · rw [jd_tm_get_isdst, ht]; simp [janet_truthy, janet_wrap_true]
  · rw [jd_tm_get_isdst, hf]; simp [janet_truthy, janet_wrap_false]
  · rw [jd_tm_get_isdst, hd]; simp [janet_ckeywordv]

theorem jd_tm_put_isdst_witness :
    (janet_type (janet_wrap_integer 0) = .NUMBER ∨ janet_type (janet_wrap_integer 0) = .KEYWORD
      ∨ janet_type (janet_wrap_integer 0) = .BOOLEAN) ∧
    jd_tm_put (utc_platform false false) tm_y2k (.keyword "isdst") (janet_wrap_integer 0)
      = ⟨{ tm_y2k with tm_isdst := 1 }, .ok ()⟩ ∧
    jd_tm_get (utc_platform false false) { tm_y2k with tm_isdst := 1 } (.keyword "isdst") .nil
      = ⟨{ tm_y2k with tm_isdst := 1 }, 1, .boolean true⟩ :=
  ⟨by decide,
    (jd_tm_put_isdst (utc_platform false false) tm_y2k (janet_wrap_integer 0) .nil
      (by decide)).1,
    (jd_tm_put_isdst (utc_platform false false) tm_y2k (janet_wrap_integer 0) .nil
      (by decide)).2.1⟩

/-! ## Reading -/

/-- C3: for every platform, record and initial `*out`, `jd_tm_get` returns 1
and leaves the record as it is; `*out` is the stored integer for sec, min,
hour, mday, mon, wday and yday, the stored value plus 1900 (an `int` addition)
for year, and for isdst false when the stored integer is 0, true when it is
positive, the keyword detect when it is negative. -/
theorem jd_tm_get_fields (pf : Platform) (r : Tm) (out : Janet) :
    jd_tm_get pf r (.keyword "sec") out = ⟨r, 1, janet_wrap_integer r.tm_sec⟩ ∧
    jd_tm_get pf r (.keyword "min") out = ⟨r, 1, janet_wrap_integer r.tm_min⟩ ∧
    jd_tm_get pf r (.keyword "hour") out = ⟨r, 1, janet_wrap_integer r.tm_hour⟩ ∧
    jd_tm_get pf r (.keyword "mday") out = ⟨r, 1, janet_wrap_integer r.tm_mday⟩ ∧
    jd_tm_get pf r (.keyword "mon") out = ⟨r, 1, janet_wrap_integer r.tm_mon⟩ ∧
    jd_tm_get pf r (.keyword "wday") out = ⟨r, 1, janet_wrap_integer r.tm_wday⟩ ∧
    jd_tm_get pf r (.keyword "yday") out = ⟨r, 1, janet_wrap_integer r.tm_yday⟩ ∧
    jd_tm_get pf r (.keyword "year") out
      = ⟨r, 1, janet_wrap_integer (wrap32 (r.tm_year + 1900))⟩ ∧
    (isInt32 (r.tm_year + 1900) →
      jd_tm_get pf r (.keyword "year") out = ⟨r, 1, janet_wrap_integer (r.tm_year + 1900)⟩) ∧
    (r.tm_isdst = 0 →
      jd_tm_get pf r (.keyword "isdst") out = ⟨r, 1, .boolean false⟩) ∧
    (0 < r.tm_isdst →
      jd_tm_get pf r (.keyword "isdst") out = ⟨r, 1, .boolean true⟩) ∧
    (r.tm_isdst < 0 →
      jd_tm_get pf r (.keyword "isdst") out = ⟨r, 1, .keyword "detect"⟩) := by
  have hy : jd_tm_get pf r (.keyword "year") out
      = ⟨r, 1, janet_wrap_integer (wrap32 (r.tm_year + 1900))⟩ := by
    simp [jd_tm_get, jd_tm_get_loop, jd_tm_keys, janet_keyeq, janet_getmethod, jd_tm_methods,
      Tm.load]
  refine ⟨?_, ?_, ?_, ?_, ?_, ?_, ?_, hy, ?_, ?_, ?_, ?_⟩
  any_goals
    simp [jd_tm_get, jd_tm_get_loop, jd_tm_keys, janet_keyeq, janet_getmethod, jd_tm_methods,
      Tm.load]
  · intro h
    rw [wrap32_of_isInt32 h]
  · intro h
    simp [h, janet_wrap_false]
  · intro h
    simp [h, janet_wrap_true, ne_of_gt h]
  · intro h
    simp [janet_ckeywordv, ne_of_lt h, not_lt_of_gt h]

theorem jd_tm_get_fields_witness :
    jd_tm_get (utc_platform true true) { tm_y2k with tm_isdst := -7 } (.keyword "year") .nil
      = ⟨{ tm_y2k with tm_isdst := -7 }, 1, janet_wrap_integer 2000⟩ ∧
    jd_tm_get (utc_platform true true) { tm_y2k with tm_isdst := -7 } (.keyword "isdst") .nil
      = ⟨{ tm_y2k with tm_isdst := -7 }, 1, .keyword "detect"⟩ :=
  ⟨(jd_tm_get_fields (utc_platform true true) { tm_y2k with tm_isdst := -7 } .nil).2.2.2.2.2.2.2.2.1
      (by decide),
    (jd_tm_get_fields (utc_platform true true) { tm_y2k with tm_isdst := -7 }
      .nil).2.2.2.2.2.2.2.2.2.2.2 (by decide)⟩

/-! ## Writing: the failures -/

/-- On a platform that has the members gmtoff and zone, `jd_tm_put` with key
gmtoff or zone and any value of any type leaves through the call of line 119,
before any test of the value and any store. -/
theorem jd_tm_put_read_only (pf : Platform) (hg : pf.TM_GMTOFF = true) (hz : pf.TM_ZONE = true)
    (r : Tm) (v : Janet) :
    jd_tm_put pf r (.keyword "gmtoff") v = ⟨r, .error (.read_only (.keyword "gmtoff"))⟩ ∧
    jd_tm_put pf r (.keyword "zone") v = ⟨r, .error (.read_only (.keyword "zone"))⟩ := by
  simp [jd_tm_put, hg, hz, janet_keyeq]

/-- C4, at the failing input: on the reference platform with the members gmtoff
and zone (a nan-boxed build), `jd_tm_put` with key gmtoff or zone leaves through
the call of line 119 with the record as it was, but that call gives the Janet
key to the directive `%s` and the process ends while the message is formatted:
no read-only panic is raised.  The call of line 141, which uses `%v`, raises
its panic.  On every platform with the members the record is left as it was,
and the read-only panic is raised exactly where the formatter survives the
key. -/
theorem jd_tm_put_gmtoff_crashes :
    jd_tm_put (utc_platform true true) tm_y2k (.keyword "gmtoff") (janet_wrap_integer 3600)
      = ⟨tm_y2k, .error (.read_only (.keyword "gmtoff"))⟩ ∧
    jd_tm_put_observed (utc_platform true true) tm_y2k (.keyword "gmtoff")
      (janet_wrap_integer 3600) = .crash ∧
    jd_tm_put_observed (utc_platform true true) tm_y2k (.keyword "zone")
      (janet_wrap_integer 3600) = .crash ∧
    jd_tm_put_observed (utc_platform true true) tm_y2k (.keyword "century")
      (janet_wrap_integer 20) = .panic (.invalid_field (.keyword "century")) ∧
    (∀ (pf : Platform) (r : Tm) (v : Janet) (f : String),
      pf.TM_GMTOFF = true → pf.TM_ZONE = true → f = "gmtoff" ∨ f = "zone" →
      (jd_tm_put pf r (.keyword f) v).state = r ∧
      (jd_tm_put_observed pf r (.keyword f) v = .panic (.read_only (.keyword f))
        ↔ (pf.format_s_janet (.keyword f)).isSome = true) ∧
      (jd_tm_put_observed pf r (.keyword f) v = .crash
        ↔ pf.format_s_janet (.keyword f) = none)) := by
  refine ⟨by decide, by decide, by decide, by decide, ?_⟩
  intro pf r v f hg hz hf
  have hput : jd_tm_put pf r (.keyword f) v = ⟨r, .error (.read_only (.keyword f))⟩ := by
    rcases hf with rfl | rfl <;> simp [jd_tm_put, hg, hz, janet_keyeq]
  refine ⟨by rw [hput], ?_, ?_⟩ <;>
    cases hfmt : pf.format_s_janet (.keyword f) <;>
    simp [jd_tm_put_observed, hput, Failure.observed, hfmt]

/-- The loop of `jd_tm_put` over entries none of which the key matches ends in
the invalid-field panic with the record as it was. -/
theorem jd_tm_put_loop_no_match (pf : Platform) (r : Tm) (key v : Janet) (l : List jd_tm_key)
    (h : ∀ k ∈ l, janet_keyeq key k.key = false) :
    jd_tm_put_loop pf r key v l = ⟨r, .error (.invalid_field key)⟩ := by
  induction l with
  | nil => rfl
  | cons k rest ih =>
    have hk := h k (List.mem_cons_self _ _)
    simp only [jd_tm_put_loop, hk]
    exact ih (fun k2 hk2 => h k2 (List.mem_cons_of_mem _ hk2))

/-- A key that matches no entry of the table passes the read-only test. -/
theorem read_only_test_of_no_match (pf : Platform) (key : Janet)
    (h : ∀ k ∈ jd_tm_keys pf, janet_keyeq key k.key = false) :
    ((pf.TM_GMTOFF && janet_keyeq key "gmtoff") || (pf.TM_ZONE && janet_keyeq key "zone"))
      = false := by
  cases hg : pf.TM_GMTOFF <;> cases hz : pf.TM_ZONE <;> simp
  · exact h ⟨"zone", .tm_zone⟩ (by simp [jd_tm_keys, hz])
  · exact h ⟨"gmtoff", .tm_gmtoff⟩ (by simp [jd_tm_keys, hg])
  · exact ⟨h ⟨"gmtoff", .tm_gmtoff⟩ (by simp [jd_tm_keys, hg]),
      h ⟨"zone", .tm_zone⟩ (by simp [jd_tm_keys, hz])⟩

/-- C5 as stated fails: with the unknown key foo and the value nil the panic is
the type mismatch, not the invalid field. -/
theorem jd_tm_put_nil_to_unknown_key :
    (∀ k ∈ jd_tm_keys (utc_platform false false), janet_keyeq (.keyword "foo") k.key = false) ∧
    jd_tm_put (utc_platform false false) tm_y2k (.keyword "foo") .nil
      = ⟨tm_y2k, .error (.type_mismatch .nil)⟩ ∧
    (jd_tm_put (utc_platform false false) tm_y2k (.keyword "foo") .nil).result
      ≠ .error (.invalid_field (.keyword "foo")) := by
  decide

/-- C5, amended: for every platform, record, key that matches no entry of the
field table (keyword or not) and value, `jd_tm_put` leaves the record as it
was and ends in the invalid-field panic when the value is a number, a keyword
or a boolean, and in the type-mismatch panic when it is of any other type. -/
theorem jd_tm_put_unknown_key (pf : Platform) (r : Tm) (key v : Janet)
    (h : ∀ k ∈ jd_tm_keys pf, janet_keyeq key k.key = false) :
    (janet_type v = .NUMBER ∨ janet_type v = .KEYWORD ∨ janet_type v = .BOOLEAN →
      jd_tm_put pf r key v = ⟨r, .error (.invalid_field key)⟩) ∧
    (¬ (janet_type v = .NUMBER ∨ janet_type v = .KEYWORD ∨ janet_type v = .BOOLEAN) →
      jd_tm_put pf r key v = ⟨r, .error (.type_mismatch v)⟩) := by
  have hro := read_only_test_of_no_match pf key h
  constructor
  · intro hv
    have hm : janet_checktypes v
        (JANET_TFLAG_NUMBER ||| JANET_TFLAG_KEYWORD ||| JANET_TFLAG_BOOLEAN) = true := by
      rw [janet_checktypes_mask]
      rcases hv with h | h | h <;> simp [h]
    simp only [jd_tm_put, hro, hm]
    simpa using jd_tm_put_loop_no_match pf r key v _ h
  · intro hv
    have hm : janet_checktypes v
        (JANET_TFLAG_NUMBER ||| JANET_TFLAG_KEYWORD ||| JANET_TFLAG_BOOLEAN) = false := by
      rw [janet_checktypes_mask]
      simp only [not_or] at hv
      simp [hv.1, hv.2.1, hv.2.2]
    simp [jd_tm_put, hro, hm]

theorem jd_tm_put_unknown_key_witness :
    (∀ k ∈ jd_tm_keys (utc_platform true true), janet_keyeq (.keyword "century") k.key = false) ∧
    jd_tm_put (utc_platform true true) tm_y2k (.keyword "century") (janet_wrap_integer 20)
      = ⟨tm_y2k, .error (.invalid_field (.keyword "century"))⟩ :=
  ⟨by decide,
    (jd_tm_put_unknown_key (utc_platform true true) tm_y2k (.keyword "century")
      (janet_wrap_integer 20) (by decide)).1 (by decide)⟩

/-- C6 as stated fails: the keyword on is neither a number, a boolean nor the
keyword detect, yet `jd_tm_put` with key isdst accepts it and stores 1. -/
theorem jd_tm_put_accepts_other_keyword :
    jd_tm_put (utc_platform false false) tm_y2k (.keyword "isdst") (.keyword "on")
      = ⟨{ tm_y2k with tm_isdst := 1 }, .ok ()⟩ ∧
    (jd_tm_put (utc_platform false false) tm_y2k (.keyword "isdst") (.keyword "on")).result
      ≠ .error (.type_mismatch (.keyword "on")) := by
  decide

/-- C6, amended: for every platform, record, writable field name and value
that is not a number, a boolean or a keyword (any keyword, not only detect),
`jd_tm_put` ends in the type-mismatch panic and leaves the record as it
was. -/
theorem jd_tm_put_type_mismatch (pf : Platform) (r : Tm) (f : String) (v : Janet)
    (hf : f ∈ ["sec", "min", "hour", "mday", "mon", "year", "wday", "yday", "isdst"])
    (hv : janet_type v ≠ .NUMBER ∧ janet_type v ≠ .BOOLEAN ∧ janet_type v ≠ .KEYWORD) :
    jd_tm_put pf r (.keyword f) v = ⟨r, .error (.type_mismatch v)⟩ := by
  have hm : janet_checktypes v
      (JANET_TFLAG_NUMBER ||| JANET_TFLAG_KEYWORD ||| JANET_TFLAG_BOOLEAN) = false := by
    rw [janet_checktypes_mask]
    simp [hv.1, hv.2.1, hv.2.2]
  simp only [List.mem_cons, List.mem_singleton, List.mem_nil_iff, or_false] at hf
  rcases hf with rfl | rfl | rfl | rfl | rfl | rfl | rfl | rfl | rfl <;>
    simp [jd_tm_put, janet_keyeq, hm]

theorem jd_tm_put_type_mismatch_witness :
    "mday" ∈ ["sec", "min", "hour", "mday", "mon", "year", "wday", "yday", "isdst"] ∧
    (janet_type (.string "12") ≠ .NUMBER ∧ janet_type (.string "12") ≠ .BOOLEAN
      ∧ janet_type (.string "12") ≠ .KEYWORD) ∧
    jd_tm_put (utc_platform true true) tm_y2k (.keyword "mday") (.string "12")
      = ⟨tm_y2k, .error (.type_mismatch (.string "12"))⟩ :=
  ⟨by decide, by decide,
    jd_tm_put_type_mismatch (utc_platform true true) tm_y2k "mday" (.string "12")
      (by decide) (by decide)⟩

/-! ## Reading an unknown key -/

theorem janet_getmethod_no_match (method : String) (out : Janet) (l : List JanetMethod)
    (h : ∀ m ∈ l, m.name ≠ method) : janet_getmethod method l out = (0, out) := by
  induction l with
  | nil => rfl
  | cons m rest ih =>
    have hm : (method == m.name) = false := by
      simpa using (h m (List.mem_cons_self _ _)).symm
    simp only [janet_getmethod, hm]
    exact ih (fun m2 hm2 => h m2 (List.mem_cons_of_mem _ hm2))

theorem jd_tm_get_loop_no_match (pf : Platform) (r : Tm) (key out : Janet) (l : List jd_tm_key)
    (h : ∀ k ∈ l, janet_keyeq key k.key = false) :
    jd_tm_get_loop pf r key out l = ((if janet_checktype out .NIL then 1 else 0), out) := by
  induction l with
  | nil => rfl
  | cons k rest ih =>
    have hk := h k (List.mem_cons_self _ _)
    simp only [jd_tm_get_loop, hk]
    exact ih (fun k2 hk2 => h k2 (List.mem_cons_of_mem _ hk2))

theorem janet_checktype_nil (x : Janet) : janet_checktype x .NIL = decide (x = .nil) := by
  rcases x with _ | _ | _ | _ | _ | _ | _ | _ | _ | ⟨k, _⟩ <;> try rfl
  cases k <;> rfl

/-- C7: for every platform, record and key that is not a keyword, or is a
keyword naming neither an operation of `jd_tm_methods` nor a field of
`jd_tm_keys`, `jd_tm_get` (which has no panic on any path) leaves the record
and `*out` as they were; it returns 1 only when `*out` was already nil (and the
key a keyword), 0 otherwise; what the host's `janet_get` makes of it is nil
whatever `*out` held. -/
theorem jd_tm_get_unknown (pf : Platform) (r : Tm) (key out : Janet)
    (hk : ∀ s, key = .keyword s →
      (∀ m ∈ jd_tm_methods, m.name ≠ s) ∧ (∀ k ∈ jd_tm_keys pf, k.key ≠ s)) :
    jd_tm_get pf r key out
      = ⟨r, if janet_checktype key .KEYWORD && janet_checktype out .NIL then 1 else 0, out⟩ ∧
    ((jd_tm_get pf r key out).ret ≠ 0 → out = .nil) ∧
    janet_get_result (jd_tm_get pf r key out) = .nil := by
  have hget : jd_tm_get pf r key out
      = ⟨r, if janet_checktype key .KEYWORD && janet_checktype out .NIL then 1 else 0, out⟩ := by
    cases key with
    | keyword s =>
      obtain ⟨hm, hf⟩ := hk s rfl
      have h1 := janet_getmethod_no_match s out jd_tm_methods hm
      have h2 := jd_tm_get_loop_no_match pf r (.keyword s) out (jd_tm_keys pf)
        (fun k hk2 => by simpa [janet_keyeq] using (hf k hk2).symm)
      simp [jd_tm_get, h1, h2, janet_checktype, janet_type]
    | ref k a => cases k <;> simp [jd_tm_get, janet_checktype, janet_type, RefKind.type]
    | _ => simp [jd_tm_get, janet_checktype, janet_type]
  refine ⟨hget, ?_, ?_⟩
  · rw [hget]
    by_cases ho : out = .nil
    · intro _; exact ho
    · simp [janet_checktype_nil, ho]
  · rw [hget]
    by_cases ho : out = .nil
    · simp [janet_get_result, ho, janet_wrap_nil]
    · simp [janet_get_result, janet_checktype_nil, ho, janet_wrap_nil]

theorem jd_tm_get_unknown_witness :
    (∀ s, Janet.keyword "century" = .keyword s →
      (∀ m ∈ jd_tm_methods, m.name ≠ s) ∧ (∀ k ∈ jd_tm_keys (utc_platform true true), k.key ≠ s)) ∧
    jd_tm_get (utc_platform true true) tm_y2k (.keyword "century") (.boolean true)
      = ⟨tm_y2k, 0, .boolean true⟩ ∧
    ((jd_tm_get (utc_platform true true) tm_y2k (.keyword "century") (.boolean true)).ret ≠ 0 →
      Janet.boolean true = .nil) ∧
    janet_get_result
      (jd_tm_get (utc_platform true true) tm_y2k (.keyword "century") (.boolean true)) = .nil :=
  ⟨fun s hs => by cases hs; decide,
    jd_tm_get_unknown (utc_platform true true) tm_y2k (.keyword "century") (.boolean true)
      (fun s hs => by cases hs; decide)⟩

/-! ## Enumeration -/

/-- C8: for every platform and record, the enumeration that starts from nil and
feeds `jd_tm_next` the key it last returned yields exactly the names of the
field table in table order, sec, min, hour, mday, mon, year, wday, yday, isdst,
then gmtoff and zone where the platform has them, no name twice; nil comes
at the call after the last name and not before, so the enumeration ends after
one call for each entry and one more. -/
theorem jd_tm_next_enumerates (pf : Platform) (p : Tm) :
    (∀ fuel, (jd_tm_keys pf).length < fuel →
      jd_tm_enumerate pf p fuel .nil
        = some ((jd_tm_keys pf).map (fun k => janet_ckeywordv k.key))) ∧
    jd_tm_enumerate pf p (jd_tm_keys pf).length .nil = none ∧
    (jd_tm_keys pf).map (fun k => k.key)
      = ["sec", "min", "hour", "mday", "mon", "year", "wday", "yday", "isdst"]
        ++ (if pf.TM_GMTOFF then ["gmtoff"] else []) ++ (if pf.TM_ZONE then ["zone"] else []) ∧
    ((jd_tm_keys pf).map (fun k => k.key)).Nodup := by
  cases hg : pf.TM_GMTOFF <;> cases hz : pf.TM_ZONE
  all_goals
    refine ⟨?_, ?_, ?_, ?_⟩
    · intro fuel hfuel
      obtain ⟨k, rfl⟩ : ∃ k, fuel = k + ((jd_tm_keys pf).length + 1) :=
        ⟨fuel - ((jd_tm_keys pf).length + 1), by omega⟩
      simp [jd_tm_enumerate, jd_tm_next, jd_tm_next_loop, jd_tm_keys, hg, hz, janet_keyeq,
        janet_ckeywordv, janet_wrap_nil]
    · simp [jd_tm_enumerate, jd_tm_next, jd_tm_next_loop, jd_tm_keys, hg, hz, janet_keyeq,
        janet_ckeywordv, janet_wrap_nil]
    · simp [jd_tm_keys, hg, hz]
    · simp [jd_tm_keys, hg, hz]

/-! ## Conversions: heap lemmas -/

theorem Heap.load_tm_eq (pf : Platform) {h : Heap} {a : Nat} {R : Tm}
    (hR : h[a]? = some (.tm R)) : Heap.load_tm pf h a = R := by
  simp [Heap.load_tm, hR]

theorem Heap.getElem?_append_of_getElem? {h : Heap} {a : Nat} {x : AbstractObj}
    (hR : h[a]? = some x) (l : Heap) : (h ++ l)[a]? = some x := by
  have hlt : a < h.length := by
    by_contra hc
    have : h[a]? = none := List.getElem?_eq_none (by omega)
    rw [this] at hR
    cases hR
  rw [List.getElem?_append_left hlt]
  exact hR

theorem Heap.lt_length_of_getElem? {h : Heap} {a : Nat} {x : AbstractObj}
    (hR : h[a]? = some x) : a < h.length := by
  by_contra hc
  have : h[a]? = none := List.getElem?_eq_none (by omega)
  rw [this] at hR
  cases hR

theorem Heap.getElem?_length (h : Heap) (x : AbstractObj) (l : Heap) :
    (h ++ x :: l)[h.length]? = some x := by
  induction h with
  | nil => simp
  | cons _ _ ih => simpa using ih

theorem Heap.store_append_left {h : Heap} {a : Nat} (hlt : a < h.length) (l : Heap)
    (x : AbstractObj) : Heap.store (h ++ l) a x = Heap.store h a x ++ l := by
  simp [Heap.store, List.set_append, hlt]

theorem Heap.store_length (h : Heap) (x y : AbstractObj) (l : Heap) :
    Heap.store (h ++ x :: l) h.length y = h ++ y :: l := by
  simp [Heap.store, List.set_append]

theorem Heap.store_length_succ (h : Heap) (x y z : AbstractObj) :
    Heap.store (h ++ [x, y]) (h.length + 1) z = h ++ [x, z] := by
  simp [Heap.store, List.set_append]

theorem jd_gettm_of_getElem? {h : Heap} {a : Nat} {R : Tm} (hR : h[a]? = some (.tm R)) :
    jd_gettm h [.abstract a] 0 = .ok a := by
  simp [jd_gettm, janet_checktype, janet_type, hR]

theorem jd_opttm_of_getElem? {h : Heap} {a : Nat} {R : Tm} (hR : h[a]? = some (.tm R)) :
    jd_opttm h [.abstract a] 0 = .ok (some a) := by
  simp [jd_opttm, jd_gettm_of_getElem? hR, janet_checktype, janet_type]

/-- What `jd_mktime` leaves and returns for a record argument. -/
theorem jd_mktime_eq (pf : Platform) (h : Heap) (a : Nat) (R : Tm)
    (hR : h[a]? = some (.tm R)) :
    jd_mktime pf h [.abstract a]
      = ⟨h ++ [.tm (pf.mktime R).1, .time (pf.mktime R).2], .ok (.abstract (h.length + 1))⟩ := by
  have h1 : Heap.load_tm pf (h ++ [.tm pf.uninit_tm]) a = R :=
    Heap.load_tm_eq pf (Heap.getElem?_append_of_getElem? hR _)
  have h2 : Heap.load_tm pf (h ++ [.tm R] ++ [.time pf.uninit_time]) h.length = R := by
    rw [List.append_assoc]
    exact Heap.load_tm_eq pf (Heap.getElem?_length h _ _)
  simp only [jd_mktime, jd_gettm_of_getElem? hR, jd_maketm, jd_maketime, janet_abstract, h1,
    Heap.store_length, h2, janet_wrap_abstract]
  simp [Heap.store, List.set_append]

/-- What `jd_time_utc` and `jd_time_localtime` leave and return for a record
argument. -/
theorem jd_time_convert_eq (pf : Platform) (breakdown : Int → Option Tm) (now : Int)
    (h : Heap) (a : Nat) (R : Tm) (hR : h[a]? = some (.tm R)) :
    jd_time_convert pf breakdown now h [.abstract a]
      = match breakdown (pf.mktime R).2 with
        | some v => ⟨h ++ [.tm v], .ok (.abstract h.length)⟩
        | none => ⟨h ++ [.tm (pf.mktime R).1], .error .null_deref⟩ := by
  have h1 : Heap.load_tm pf (h ++ [.tm pf.uninit_tm]) a = R :=
    Heap.load_tm_eq pf (Heap.getElem?_append_of_getElem? hR _)
  have h2 : Heap.load_tm pf (h ++ [.tm R]) h.length = R :=
    Heap.load_tm_eq pf (Heap.getElem?_length h _ _)
  simp only [jd_time_convert, jd_opttm_of_getElem? hR, jd_maketm, janet_abstract, h1,
    Heap.store_length, h2, janet_wrap_abstract]
  cases breakdown (pf.mktime R).2 <;> simp [Heap.store_length]

/-- What `jd_mktime_inplace` leaves and returns for a record argument. -/
theorem jd_mktime_inplace_eq (pf : Platform) (h : Heap) (a : Nat) (R : Tm)
    (hR : h[a]? = some (.tm R)) :
    jd_mktime_inplace pf h [.abstract a]
      = ⟨h.set a (.tm (pf.mktime R).1) ++ [.time (pf.mktime R).2],
          .ok (.abstract h.length)⟩ := by
  have hlt := Heap.lt_length_of_getElem? hR
  have h1 : Heap.load_tm pf (h ++ [.time pf.uninit_time]) a = R :=
    Heap.load_tm_eq pf (Heap.getElem?_append_of_getElem? hR _)
  simp only [jd_mktime_inplace, jd_gettm_of_getElem? hR, jd_maketime, janet_abstract, h1,
    janet_wrap_abstract]
  simp [Heap.store, List.set_append, hlt]

/-- What `jd_time_utc_inplace` and `jd_time_localtime_inplace` leave and return
for a record argument. -/
theorem jd_time_convert_inplace_eq (pf : Platform) (breakdown : Int → Option Tm)
    (h : Heap) (a : Nat) (R : Tm) (hR : h[a]? = some (.tm R)) :
    jd_time_convert_inplace pf breakdown h [.abstract a]
      = match breakdown (pf.mktime R).2 with
        | some v => ⟨h.set a (.tm v), .ok (.abstract a)⟩
        | none => ⟨h.set a (.tm (pf.mktime R).1), .error .null_deref⟩ := by
  simp only [jd_time_convert_inplace, jd_gettm_of_getElem? hR, Heap.load_tm_eq pf hR,
    janet_wrap_abstract]
  cases breakdown (pf.mktime R).2 <;> simp [Heap.store]

theorem Heap.getElem?_set_self {h : Heap} {a : Nat} (hlt : a < h.length) (x : AbstractObj) :
    (h.set a x)[a]? = some x := by
  simp [List.getElem?_set, hlt]

theorem Heap.getElem?_set_length (h : Heap) (a : Nat) (x y : AbstractObj) :
    (h.set a x ++ [y])[h.length]? = some y := by
  have := Heap.getElem?_length (h.set a x) y []
  rwa [List.length_set] at this

/-! ## Conversions: the caller's record -/

/-- C9: for every platform, heap and record `R` of the heap (whatever its
fields hold, in range or not), `jd_mktime`, `jd_time_localtime` and
`jd_time_utc` called on `R` leave `R` and every other object of the heap as
they were: what they write goes to objects allocated by the call.  `jd_mktime`
returns a new time object holding the epoch of `R`; `jd_time_localtime` and
`jd_time_utc`, when the C library returns a breakdown, return a record at a
new address, different from that of `R`, holding that breakdown. -/
theorem jd_keeps_record (pf : Platform) (now : Int) (h : Heap) (a : Nat) (R : Tm)
    (hR : h[a]? = some (.tm R)) :
    (jd_mktime pf h [.abstract a]).state[a]? = some (.tm R) ∧
    (jd_time_localtime pf now h [.abstract a]).state[a]? = some (.tm R) ∧
    (jd_time_utc pf now h [.abstract a]).state[a]? = some (.tm R) ∧
    (∃ l, (jd_mktime pf h [.abstract a]).state = h ++ l) ∧
    (∃ l, (jd_time_localtime pf now h [.abstract a]).state = h ++ l) ∧
    (∃ l, (jd_time_utc pf now h [.abstract a]).state = h ++ l) ∧
    jd_mktime pf h [.abstract a]
      = ⟨h ++ [.tm (pf.mktime R).1, .time (pf.mktime R).2], .ok (.abstract (h.length + 1))⟩ ∧
    (∀ v, pf.localtime (pf.mktime R).2 = some v →
      jd_time_localtime pf now h [.abstract a] = ⟨h ++ [.tm v], .ok (.abstract h.length)⟩) ∧
    (∀ v, pf.gmtime (pf.mktime R).2 = some v →
      jd_time_utc pf now h [.abstract a] = ⟨h ++ [.tm v], .ok (.abstract h.length)⟩) ∧
    a ≠ h.length := by
  have hm := jd_mktime_eq pf h a R hR
  have hl := jd_time_convert_eq pf pf.localtime now h a R hR
  have hu := jd_time_convert_eq pf pf.gmtime now h a R hR
  have hlt := Heap.lt_length_of_getElem? hR
  refine ⟨?_, ?_, ?_, ?_, ?_, ?_, hm, ?_, ?_, by omega⟩
  · rw [hm]
    exact Heap.getElem?_append_of_getElem? hR _
  · unfold jd_time_localtime
    rw [hl]
    cases pf.localtime (pf.mktime R).2 <;> exact Heap.getElem?_append_of_getElem? hR _
  · unfold jd_time_utc
    rw [hu]
    cases pf.gmtime (pf.mktime R).2 <;> exact Heap.getElem?_append_of_getElem? hR _
  · exact ⟨_, congrArg Outcome.state hm⟩
  · unfold jd_time_localtime
    rw [hl]
    cases pf.localtime (pf.mktime R).2 <;> exact ⟨_, rfl⟩
  · unfold jd_time_utc
    rw [hu]
    cases pf.gmtime (pf.mktime R).2 <;> exact ⟨_, rfl⟩
  · intro v hv
    unfold jd_time_localtime
    rw [hl, hv]
  · intro v hv
    unfold jd_time_utc
    rw [hu, hv]

theorem jd_keeps_record_witness :
    ([.tm tm_jan32] : Heap)[0]? = some (.tm tm_jan32) ∧
    (jd_mktime (utc_platform true true) [.tm tm_jan32] [.abstract 0]).state[0]?
      = some (.tm tm_jan32) ∧
    jd_mktime (utc_platform true true) [.tm tm_jan32] [.abstract 0]
      = ⟨[.tm tm_jan32,
          .tm { Tm.zero with tm_mday := 1, tm_mon := 1, tm_year := 100, tm_wday := 2,
                             tm_yday := 31, tm_zone := "UTC" },
          .time 949363200], .ok (.abstract 2)⟩ :=
  ⟨rfl,
    (jd_keeps_record (utc_platform true true) 0 [.tm tm_jan32] 0 tm_jan32 rfl).1,
    (jd_keeps_record (utc_platform true true) 0 [.tm tm_jan32] 0 tm_jan32 rfl).2.2.2.2.2.2.1⟩

/-! ## Conversions: in place and not -/

/-- C10: for every platform (its `mktime`, `localtime` and `gmtime` fixed
functions), heap and record `R` of the heap: `jd_mktime_inplace` returns a new
time object holding the same epoch as the one `jd_mktime` returns and leaves in
`R` the record as `mktime` normalises it; `jd_time_localtime_inplace` and
`jd_time_utc_inplace` return `R` itself, holding exactly the record that
`jd_time_localtime` and `jd_time_utc` return at a new address; where the C
library returns no breakdown, both variants end in the same null dereference. -/
theorem jd_inplace_agrees (pf : Platform) (now : Int) (h : Heap) (a : Nat) (R : Tm)
    (hR : h[a]? = some (.tm R)) :
    jd_mktime_inplace pf h [.abstract a]
      = ⟨h.set a (.tm (pf.mktime R).1) ++ [.time (pf.mktime R).2], .ok (.abstract h.length)⟩ ∧
    (jd_mktime_inplace pf h [.abstract a]).returned_obj = some (.time (pf.mktime R).2) ∧
    (jd_mktime pf h [.abstract a]).returned_obj = some (.time (pf.mktime R).2) ∧
    (jd_mktime_inplace pf h [.abstract a]).state[a]? = some (.tm (pf.mktime R).1) ∧
    (∀ v, pf.localtime (pf.mktime R).2 = some v →
      jd_time_localtime_inplace pf h [.abstract a] = ⟨h.set a (.tm v), .ok (.abstract a)⟩ ∧
      (jd_time_localtime_inplace pf h [.abstract a]).returned_obj = some (.tm v) ∧
      (jd_time_localtime pf now h [.abstract a]).returned_obj = some (.tm v)) ∧
    (∀ v, pf.gmtime (pf.mktime R).2 = some v →
      jd_time_utc_inplace pf h [.abstract a] = ⟨h.set a (.tm v), .ok (.abstract a)⟩ ∧
      (jd_time_utc_inplace pf h [.abstract a]).returned_obj = some (.tm v) ∧
      (jd_time_utc pf now h [.abstract a]).returned_obj = some (.tm v)) ∧
    (pf.localtime (pf.mktime R).2 = none →
      (jd_time_localtime_inplace pf h [.abstract a]).result = .error .null_deref ∧
      (jd_time_localtime pf now h [.abstract a]).result = .error .null_deref) ∧
    (pf.gmtime (pf.mktime R).2 = none →
      (jd_time_utc_inplace pf h [.abstract a]).result = .error .null_deref ∧
      (jd_time_utc pf now h [.abstract a]).result = .error .null_deref) := by
  have hlt := Heap.lt_length_of_getElem? hR
  have hm := jd_mktime_eq pf h a R hR
  have hmi := jd_mktime_inplace_eq pf h a R hR
  have hconv : ∀ (breakdown : Int → Option Tm) (v : Tm), breakdown (pf.mktime R).2 = some v →
      jd_time_convert_inplace pf breakdown h [.abstract a]
        = ⟨h.set a (.tm v), .ok (.abstract a)⟩ ∧
      (jd_time_convert_inplace pf breakdown h [.abstract a]).returned_obj = some (.tm v) ∧
      (jd_time_convert pf breakdown now h [.abstract a]).returned_obj = some (.tm v) := by
    intro breakdown v hv
    have e1 := jd_time_convert_inplace_eq pf breakdown h a R hR
    have e2 := jd_time_convert_eq pf breakdown now h a R hR
    rw [hv] at e1 e2
    refine ⟨e1, ?_, ?_⟩
    · rw [e1]
      exact Heap.getElem?_set_self hlt _
    · rw [e2]
      exact Heap.getElem?_length h _ []
  have hnull : ∀ (breakdown : Int → Option Tm), breakdown (pf.mktime R).2 = none →
      (jd_time_convert_inplace pf breakdown h [.abstract a]).result = .error .null_deref ∧
      (jd_time_convert pf breakdown now h [.abstract a]).result = .error .null_deref := by
    intro breakdown hv
    have e1 := jd_time_convert_inplace_eq pf breakdown h a R hR
    have e2 := jd_time_convert_eq pf breakdown now h a R hR
    rw [hv] at e1 e2
    rw [e1, e2]
    exact ⟨rfl, rfl⟩
  refine ⟨hmi, ?_, ?_, ?_, hconv pf.localtime, hconv pf.gmtime, hnull pf.localtime,
    hnull pf.gmtime⟩
  · rw [hmi]
    exact Heap.getElem?_set_length h a _ _
  · rw [hm]
    show (h ++ [AbstractObj.tm (pf.mktime R).1, .time (pf.mktime R).2])[h.length + 1]? = _
    have := Heap.getElem?_length (h ++ [.tm (pf.mktime R).1]) (.time (pf.mktime R).2) []
    simpa using this
  · rw [hmi]
    exact Heap.getElem?_append_of_getElem? (Heap.getElem?_set_self hlt _) _

theorem jd_inplace_agrees_witness :
    ([.tm tm_jan32] : Heap)[0]? = some (.tm tm_jan32) ∧
    jd_mktime_inplace (utc_platform true true) [.tm tm_jan32] [.abstract 0]
      = ⟨[.tm { Tm.zero with tm_mday := 1, tm_mon := 1, tm_year := 100, tm_wday := 2,
                             tm_yday := 31, tm_zone := "UTC" },
          .time 949363200], .ok (.abstract 1)⟩ ∧
    (jd_mktime (utc_platform true true) [.tm tm_jan32] [.abstract 0]).returned_obj
      = some (.time 949363200) :=
  ⟨rfl,
    (jd_inplace_agrees (utc_platform true true) 0 [.tm tm_jan32] 0 tm_jan32 rfl).1,
    (jd_inplace_agrees (utc_platform true true) 0 [.tm tm_jan32] 0 tm_jan32 rfl).2.2.1⟩

/-! ## Round trips through the epoch -/

/-- Counterexample to C11 as stated: in a zone one hour east of UTC the record
2000-01-01 00:00:00 has the epoch 946681200, while `mktime` gives 946677600 for
the record localtime(utc(R)) and for the record utc(localtime(R)). -/
theorem jd_round_trip_off_utc :
    (jd_mktime (offset_platform 3600) [.tm tm_y2k] [.abstract 0]).returned_obj
      = some (.time 946681200) ∧
    (((jd_time_utc (offset_platform 3600) 0 [.tm tm_y2k] [.abstract 0]).and_then
        (jd_time_localtime (offset_platform 3600) 0)).and_then
        (jd_mktime (offset_platform 3600))).returned_obj = some (.time 946677600) ∧
    (((jd_time_localtime (offset_platform 3600) 0 [.tm tm_y2k] [.abstract 0]).and_then
        (jd_time_utc (offset_platform 3600) 0)).and_then
        (jd_mktime (offset_platform 3600))).returned_obj = some (.time 946677600) ∧
    (((jd_time_utc (offset_platform 3600) 0 [.tm tm_y2k] [.abstract 0]).and_then
        (jd_time_localtime (offset_platform 3600) 0)).and_then
        (jd_mktime (offset_platform 3600))).returned_obj
      ≠ (jd_mktime (offset_platform 3600) [.tm tm_y2k] [.abstract 0]).returned_obj := by
  decide

/-- The epoch `mktime` gives for the record that a conversion of the record
returned by another conversion returns. -/
theorem jd_convert_convert_mktime (pf : Platform) (b1 b2 : Int → Option Tm) (now : Int)
    (h : Heap) (a : Nat) (R v1 v2 : Tm) (hR : h[a]? = some (.tm R))
    (h1 : b1 (pf.mktime R).2 = some v1) (h2 : b2 (pf.mktime v1).2 = some v2) :
    (((jd_time_convert pf b1 now h [.abstract a]).and_then (jd_time_convert pf b2 now)).and_then
      (jd_mktime pf)).returned_obj = some (.time (pf.mktime v2).2) := by
  have e1 := jd_time_convert_eq pf b1 now h a R hR
  rw [h1] at e1
  have hv1 : (h ++ [AbstractObj.tm v1])[h.length]? = some (.tm v1) :=
    Heap.getElem?_length h _ []
  have e2 := jd_time_convert_eq pf b2 now (h ++ [.tm v1]) h.length v1 hv1
  rw [h2] at e2
  have hv2 : (h ++ [AbstractObj.tm v1] ++ [AbstractObj.tm v2])[(h ++ [AbstractObj.tm v1]).length]?
      = some (.tm v2) := Heap.getElem?_length (h ++ [.tm v1]) _ []
  have e3 := jd_mktime_eq pf (h ++ [.tm v1] ++ [.tm v2]) (h ++ [AbstractObj.tm v1]).length v2 hv2
  simp only [Outcome.and_then, e1, e2, e3, Outcome.returned_obj]
  have := Heap.getElem?_length (h ++ [.tm v1] ++ [.tm v2] ++ [.tm (pf.mktime v2).1])
    (.time (pf.mktime v2).2) []
  simpa using this

/-- C11, amended: for every platform, heap and record `R` with epoch
`t = mktime(R)` such that `gmtime(t)` and `localtime(t)` return records `u` and
`l` for which `mktime` gives `t` back (as it does under TZ=UTC), the epoch
`mktime` gives for the record localtime(utc(R)) and the one it gives for the
record utc(localtime(R)) both equal `t`. -/
theorem jd_round_trip_epoch (pf : Platform) (now : Int) (h : Heap) (a : Nat) (R u l : Tm)
    (hR : h[a]? = some (.tm R))
    (hu : pf.gmtime (pf.mktime R).2 = some u) (hl : pf.localtime (pf.mktime R).2 = some l)
    (hmu : (pf.mktime u).2 = (pf.mktime R).2) (hml : (pf.mktime l).2 = (pf.mktime R).2) :
    (((jd_time_utc pf now h [.abstract a]).and_then (jd_time_localtime pf now)).and_then
      (jd_mktime pf)).returned_obj = some (.time (pf.mktime R).2) ∧
    (((jd_time_localtime pf now h [.abstract a]).and_then (jd_time_utc pf now)).and_then
      (jd_mktime pf)).returned_obj = some (.time (pf.mktime R).2) ∧
    (jd_mktime pf h [.abstract a]).returned_obj = some (.time (pf.mktime R).2) := by
  refine ⟨?_, ?_, ?_⟩
  · have := jd_convert_convert_mktime pf pf.gmtime pf.localtime now h a R u l hR hu
      (by rw [hmu]; exact hl)
    rw [hml] at this
    exact this
  · have := jd_convert_convert_mktime pf pf.localtime pf.gmtime now h a R l u hR hl
      (by rw [hml]; exact hu)
    rw [hmu] at this
    exact this
  · rw [jd_mktime_eq pf h a R hR]
    have := Heap.getElem?_length (h ++ [.tm (pf.mktime R).1]) (.time (pf.mktime R).2) []
    simpa [Outcome.returned_obj] using this

theorem jd_round_trip_epoch_witness :
    ([.tm tm_y2k] : Heap)[0]? = some (.tm tm_y2k) ∧
    (utc_platform true true).gmtime ((utc_platform true true).mktime tm_y2k).2
      = some (utc_breakdown 946684800) ∧
    ((utc_platform true true).mktime (utc_breakdown 946684800)).2
      = ((utc_platform true true).mktime tm_y2k).2 ∧
    (((jd_time_utc (utc_platform true true) 0 [.tm tm_y2k] [.abstract 0]).and_then
        (jd_time_localtime (utc_platform true true) 0)).and_then
        (jd_mktime (utc_platform true true))).returned_obj = some (.time 946684800) :=
  ⟨rfl, by decide, by decide,
    (jd_round_trip_epoch (utc_platform true true) 0 [.tm tm_y2k] 0 tm_y2k
      (utc_breakdown 946684800) (utc_breakdown 946684800) rfl (by decide) (by decide)
      (by decide) (by decide)).1⟩

/-! ## Comparison -/

theorem double_to_int_intCast (pf : Platform) {d : Int} (hd : isInt32 d) :
    double_to_int pf (.finite (d : ℚ)) = d := by
  have h2 := hd
  unfold isInt32 at h2
  simp [double_to_int, ratTrunc_intCast, h2.1, h2.2]

/-- Where the two epochs are less than 2^31 seconds apart, `jd_tm_compare`
returns their difference, whose sign orders them. -/
theorem jd_tm_compare_near (pf : Platform) (a b : Tm)
    (hd : isInt32 ((pf.mktime a).2 - (pf.mktime b).2)) :
    (jd_tm_compare pf a b).ret = (pf.mktime a).2 - (pf.mktime b).2 ∧
    ((jd_tm_compare pf a b).ret < 0 ↔ (pf.mktime a).2 < (pf.mktime b).2) ∧
    ((jd_tm_compare pf a b).ret = 0 ↔ (pf.mktime a).2 = (pf.mktime b).2) ∧
    (0 < (jd_tm_compare pf a b).ret ↔ (pf.mktime b).2 < (pf.mktime a).2) := by
  have e : (jd_tm_compare pf a b).ret = (pf.mktime a).2 - (pf.mktime b).2 := by
    simp only [jd_tm_compare, difftime]
    exact double_to_int_intCast pf hd
  rw [e]
  refine ⟨rfl, ?_, ?_, ?_⟩ <;> constructor <;> intro h <;> omega

/-- C12, at the failing input: the records 2040-01-01 and 1970-01-01 have the
epochs 2208988800 and 0 under TZ=UTC; their difference does not fit an `int`,
so what `jd_tm_compare` returns is whatever the conversion of the double
2208988800 to `int` gives on the platform, and where that is INT_MIN (as on
x86-64) the result is negative although the first epoch is the greater. -/
theorem jd_tm_compare_far_apart :
    (utc_mktime tm_2040).2 = 2208988800 ∧ (utc_mktime tm_1970).2 = 0 ∧
    (jd_tm_compare (utc_platform false false) tm_2040 tm_1970).ret = -2147483648 ∧
    (jd_tm_compare (utc_platform false false) tm_2040 tm_1970).ret < 0 ∧
    (utc_mktime tm_1970).2 < (utc_mktime tm_2040).2 ∧
    (∀ pf : Platform, pf.mktime = utc_mktime →
      (jd_tm_compare pf tm_2040 tm_1970).ret
        = wrap32 (pf.cast_undefined (.number (.finite 2208988800)))) := by
  refine ⟨by decide, by decide, by decide, by decide, by decide, ?_⟩
  intro pf hpf
  have h1 : (utc_mktime tm_2040).2 = 2208988800 := by decide
  have h2 : (utc_mktime tm_1970).2 = 0 := by decide
  simp only [jd_tm_compare, difftime, hpf, h1, h2]
  simp [double_to_int, ratTrunc, INT32_MIN, INT32_MAX]

/-- C18: for every platform and pair of records, `jd_tm_compare` leaves both
records exactly as they were: `mktime` is applied to the local copies `lhp`
and `rhp`, and even a record that `mktime` would rewrite (derived members,
out-of-range members) keeps all its members. -/
theorem jd_tm_compare_keeps (pf : Platform) (a b : Tm) :
    (jd_tm_compare pf a b).lhs = a ∧ (jd_tm_compare pf a b).rhs = b ∧
    (jd_tm_compare pf a b).ret = double_to_int pf (difftime (pf.mktime a).2 (pf.mktime b).2) :=
  ⟨rfl, rfl, rfl⟩

theorem jd_tm_compare_keeps_witness :
    (utc_mktime tm_jan32).1 ≠ tm_jan32 ∧
    (jd_tm_compare (utc_platform true true) tm_jan32 tm_y2k).lhs = tm_jan32 ∧
    (jd_tm_compare (utc_platform true true) tm_jan32 tm_y2k).rhs = tm_y2k :=
  ⟨by decide, (jd_tm_compare_keeps (utc_platform true true) tm_jan32 tm_y2k).1,
    (jd_tm_compare_keeps (utc_platform true true) tm_jan32 tm_y2k).2.1⟩

/-! ## Enumeration from an unknown key -/

theorem jd_tm_next_loop_no_match (first key : Janet) (l : List jd_tm_key)
    (h : ∀ k ∈ l, janet_keyeq key k.key = false) : jd_tm_next_loop first key l = first := by
  induction l with
  | nil => rfl
  | cons k rest ih =>
    have hk := h k (List.mem_cons_self _ _)
    simp only [jd_tm_next_loop, hk]
    exact ih (fun k2 hk2 => h k2 (List.mem_cons_of_mem _ hk2))

/-- C17: for every platform, record and key that matches no name of the field
table, whether nil, an unknown keyword or a value that is not a keyword,
`jd_tm_next` returns the first name of the table, the keyword sec. -/
theorem jd_tm_next_unknown (pf : Platform) (p : Tm) (key : Janet)
    (h : ∀ k ∈ jd_tm_keys pf, janet_keyeq key k.key = false) :
    jd_tm_next pf p key = .keyword "sec" ∧
    jd_tm_next pf p .nil = .keyword "sec" ∧
    (∀ x : Janet, janet_checktype x .KEYWORD = false → jd_tm_next pf p x = .keyword "sec") := by
  have hfirst : ∀ x : Janet, (∀ k ∈ jd_tm_keys pf, janet_keyeq x k.key = false) →
      jd_tm_next pf p x = .keyword "sec" := by
    intro x hx
    unfold jd_tm_next
    rw [jd_tm_next_loop_no_match _ _ _ hx]
    simp [jd_tm_keys, janet_ckeywordv]
  refine ⟨hfirst key h, hfirst .nil (fun _ _ => rfl), ?_⟩
  intro x hx
  apply hfirst
  intro k _
  cases x <;> first | rfl | simp [janet_checktype, janet_type] at hx

theorem jd_tm_next_unknown_witness :
    (∀ k ∈ jd_tm_keys (utc_platform true true),
      janet_keyeq (.keyword "century") k.key = false) ∧
    jd_tm_next (utc_platform true true) tm_y2k (.keyword "century") = .keyword "sec" :=
  ⟨by decide,
    (jd_tm_next_unknown (utc_platform true true) tm_y2k (.keyword "century") (by decide)).1⟩

/-! ## Rendering -/

theorem jd_gettm_not_tm (h : Heap) (x : Janet) (rest : List Janet)
    (hx : ∀ a R, x = .abstract a → h[a]? ≠ some (.tm R)) :
    jd_gettm h (x :: rest) 0 = .error (.bad_slot 0 x) := by
  cases x with
  | abstract a =>
    have hx2 := hx a
    simp only [jd_gettm, List.getD_cons_zero, janet_checktype, janet_type]
    cases hget : h[a]? with
    | none => simp
    | some obj =>
      cases obj with
      | tm R => exact absurd hget (hx2 R rfl)
      | time _ => simp
      | other _ => simp
  | ref k a => cases k <;> simp [jd_gettm, janet_checktype, janet_type, RefKind.type]
  | _ => simp [jd_gettm, janet_checktype, janet_type]

theorem jd_opttm_not_tm (h : Heap) (x : Janet)
    (hx : ∀ a R, x = .abstract a → h[a]? ≠ some (.tm R)) (hnil : x ≠ .nil) :
    jd_opttm h [x] 0 = .error (.bad_slot 0 x) := by
  have hc : janet_checktype x .NIL = false := by
    rw [janet_checktype_nil]
    simp [hnil]
  simp [jd_opttm, jd_gettm_not_tm h x [] hx, hc]

/-- C14: for every platform, heap and argument list: `jd_mktime`,
`jd_mktime_inplace`, `jd_time_localtime_inplace` and `jd_time_utc_inplace` end
in the arity panic unless given exactly one argument, `jd_strftime` unless
given exactly two, `jd_time_localtime` and `jd_time_utc` when given more than
one; each ends in the bad-slot panic when the argument in record position is
not a tm record of the heap, except that `jd_time_localtime` and `jd_time_utc`
with no argument or with nil break down the current time `now` into a new
record.  The heap is as it was after each panic. -/
theorem jd_operations_reject (pf : Platform) (env : StrftimeEnv) (now : Int) (h : Heap)
    (argv : List Janet) :
    (argv.length ≠ 1 →
      jd_mktime pf h argv = ⟨h, .error (.arity argv.length)⟩ ∧
      jd_mktime_inplace pf h argv = ⟨h, .error (.arity argv.length)⟩ ∧
      jd_time_localtime_inplace pf h argv = ⟨h, .error (.arity argv.length)⟩ ∧
      jd_time_utc_inplace pf h argv = ⟨h, .error (.arity argv.length)⟩) ∧
    (argv.length ≠ 2 → jd_strftime pf env h argv = ⟨h, .error (.arity argv.length)⟩) ∧
    (1 < argv.length →
      jd_time_localtime pf now h argv = ⟨h, .error (.arity argv.length)⟩ ∧
      jd_time_utc pf now h argv = ⟨h, .error (.arity argv.length)⟩) ∧
    (∀ x : Janet, (∀ a R, x = .abstract a → h[a]? ≠ some (.tm R)) →
      jd_mktime pf h [x] = ⟨h, .error (.bad_slot 0 x)⟩ ∧
      jd_mktime_inplace pf h [x] = ⟨h, .error (.bad_slot 0 x)⟩ ∧
      jd_time_localtime_inplace pf h [x] = ⟨h, .error (.bad_slot 0 x)⟩ ∧
      jd_time_utc_inplace pf h [x] = ⟨h, .error (.bad_slot 0 x)⟩ ∧
      (∀ f : Janet, jd_strftime pf env h [x, f] = ⟨h, .error (.bad_slot 0 x)⟩) ∧
      (x ≠ .nil →
        jd_time_localtime pf now h [x] = ⟨h, .error (.bad_slot 0 x)⟩ ∧
        jd_time_utc pf now h [x] = ⟨h, .error (.bad_slot 0 x)⟩)) ∧
    (∀ v, pf.localtime now = some v →
      jd_time_localtime pf now h [] = ⟨h ++ [.tm v], .ok (.abstract h.length)⟩ ∧
      jd_time_localtime pf now h [.nil] = ⟨h ++ [.tm v], .ok (.abstract h.length)⟩) ∧
    (∀ v, pf.gmtime now = some v →
      jd_time_utc pf now h [] = ⟨h ++ [.tm v], .ok (.abstract h.length)⟩ ∧
      jd_time_utc pf now h [.nil] = ⟨h ++ [.tm v], .ok (.abstract h.length)⟩) := by
  have hnow : ∀ (breakdown : Int → Option Tm) (v : Tm), breakdown now = some v →
      jd_time_convert pf breakdown now h [] = ⟨h ++ [.tm v], .ok (.abstract h.length)⟩ ∧
      jd_time_convert pf breakdown now h [.nil]
        = ⟨h ++ [.tm v], .ok (.abstract h.length)⟩ := by
    intro breakdown v hv
    constructor <;>
      simp [jd_time_convert, jd_opttm, janet_checktype, janet_type, jd_maketm, janet_abstract,
        hv, Heap.store_length, janet_wrap_abstract]
  refine ⟨?_, ?_, ?_, ?_, hnow pf.localtime, hnow pf.gmtime⟩
  · intro hlen
    simp [jd_mktime, jd_mktime_inplace, jd_time_localtime_inplace, jd_time_utc_inplace,
      jd_time_convert_inplace, hlen]
  · intro hlen
    simp [jd_strftime, hlen]
  · intro hlen
    simp [jd_time_localtime, jd_time_utc, jd_time_convert, hlen]
  · intro x hx
    have hg := jd_gettm_not_tm h x [] hx
    refine ⟨?_, ?_, ?_, ?_, ?_, ?_⟩
    · simp [jd_mktime, hg]
    · simp [jd_mktime_inplace, hg]
    · simp [jd_time_localtime_inplace, jd_time_convert_inplace, hg]
    · simp [jd_time_utc_inplace, jd_time_convert_inplace, hg]
    · intro f
      simp [jd_strftime, jd_gettm_not_tm h x [f] hx]
    · intro hnil
      have ho := jd_opttm_not_tm h x hx hnil
      simp [jd_time_localtime, jd_time_utc, jd_time_convert, ho]

theorem jd_operations_reject_witness :
    jd_mktime (utc_platform true true) [.tm tm_y2k] [.abstract 0, .abstract 0]
      = ⟨[.tm tm_y2k], .error (.arity 2)⟩ ∧
    jd_time_utc_inplace (utc_platform true true) [.tm tm_y2k] [janet_wrap_integer 5]
      = ⟨[.tm tm_y2k], .error (.bad_slot 0 (janet_wrap_integer 5))⟩ ∧
    jd_time_utc (utc_platform true true) 86400 [.tm tm_y2k] []
      = ⟨[.tm tm_y2k, .tm (utc_breakdown 86400)], .ok (.abstract 1)⟩ :=
  ⟨((jd_operations_reject (utc_platform true true) ⟨fun _ => "", fun _ _ => ""⟩ 86400
      [.tm tm_y2k] [.abstract 0, .abstract 0]).1 (by decide)).1,
    ((jd_operations_reject (utc_platform true true) ⟨fun _ => "", fun _ _ => ""⟩ 86400
      [.tm tm_y2k] []).2.2.2.1 (janet_wrap_integer 5) (fun a R hx => by cases hx)).2.2.2.1,
    ((jd_operations_reject (utc_platform true true) ⟨fun _ => "", fun _ _ => ""⟩ 86400
      [.tm tm_y2k] []).2.2.2.2.2 (utc_breakdown 86400) (by decide)).1⟩

/-! ## Operations and fields -/

theorem jd_tm_keys_any_false (pf : Platform) (key : Janet)
    (h : ∀ k ∈ jd_tm_keys pf, janet_keyeq key k.key = false) :
    (jd_tm_keys pf).any (fun k => janet_keyeq key k.key) = false := by
  rw [List.any_eq_false]
  intro k hk
  simp [h k hk]

/-- C15: for every platform, record, key and initial `*out`, `jd_tm_get`, which
consults `jd_tm_methods` before `jd_tm_keys`, returns what the lookup that
tries the fields first and the operations second returns; each of the seven
operation names resolves to its C function, and no operation name is a field
name. -/
theorem jd_tm_get_order (pf : Platform) (p : Tm) (key out : Janet) :
    jd_tm_get pf p key out = jd_tm_get_fields_first pf p key out ∧
    jd_tm_get pf p (.keyword "mktime") out = ⟨p, 1, .cfunction "jd_mktime"⟩ ∧
    jd_tm_get pf p (.keyword "mktime!") out = ⟨p, 1, .cfunction "jd_mktime_inplace"⟩ ∧
    jd_tm_get pf p (.keyword "localtime") out = ⟨p, 1, .cfunction "jd_time_localtime"⟩ ∧
    jd_tm_get pf p (.keyword "localtime!") out
      = ⟨p, 1, .cfunction "jd_time_localtime_inplace"⟩ ∧
    jd_tm_get pf p (.keyword "utc") out = ⟨p, 1, .cfunction "jd_time_utc"⟩ ∧
    jd_tm_get pf p (.keyword "utc!") out = ⟨p, 1, .cfunction "jd_time_utc_inplace"⟩ ∧
    jd_tm_get pf p (.keyword "strftime") out = ⟨p, 1, .cfunction "jd_strftime"⟩ ∧
    (∀ m ∈ jd_tm_methods, ∀ k ∈ jd_tm_keys pf, m.name ≠ k.key) := by
  have hdisj : ∀ m ∈ jd_tm_methods, ∀ k ∈ jd_tm_keys pf, m.name ≠ k.key := by
    cases hg : pf.TM_GMTOFF <;> cases hz : pf.TM_ZONE <;>
      simp [jd_tm_methods, jd_tm_keys, hg, hz]
  refine ⟨?_, ?_, ?_, ?_, ?_, ?_, ?_, ?_, hdisj⟩
  · cases key with
    | keyword s =>
      by_cases hm : ∃ m ∈ jd_tm_methods, m.name = s
      · obtain ⟨m, hmem, rfl⟩ := hm
        have hany := jd_tm_keys_any_false pf (.keyword m.name)
          (fun k hk => by simpa [janet_keyeq] using hdisj m hmem k hk)
        simp only [jd_tm_get, jd_tm_get_fields_first, hany]
        simp [jd_tm_methods] at hmem
        rcases hmem with rfl | rfl | rfl | rfl | rfl | rfl | rfl <;>
          simp [janet_getmethod, jd_tm_methods]
      · have hno : ∀ m ∈ jd_tm_methods, m.name ≠ s := fun m hmem he => hm ⟨m, hmem, he⟩
        have h1 := janet_getmethod_no_match s out jd_tm_methods hno
        simp only [jd_tm_get, jd_tm_get_fields_first, h1]
        by_cases hany : (jd_tm_keys pf).any (fun k => janet_keyeq (.keyword s) k.key) = true
        · simp [hany]
        · have hnone : ∀ k ∈ jd_tm_keys pf, janet_keyeq (.keyword s) k.key = false := by
            intro k hk
            by_contra hc
            exact hany (List.any_eq_true.mpr ⟨k, hk, by simpa using hc⟩)
          simp [hany, jd_tm_get_loop_no_match pf p (.keyword s) out _ hnone]
    | _ => rfl
  all_goals simp [jd_tm_get, janet_getmethod, jd_tm_methods, janet_wrap_cfunction]

/-! ## Writing: what changes -/

/-- C16: for every platform, record, key and value: when `jd_tm_put` succeeds
the key is one of the nine `int` field names and the record it leaves differs
from the one it found in the member of that name at most; when it panics
(read-only field, type mismatch or invalid field) the record is as it was. -/
theorem jd_tm_put_frame (pf : Platform) (r : Tm) (key v : Janet) :
    ((jd_tm_put pf r key v).result = .ok () →
      (key = .keyword "sec" ∧ ∃ x, (jd_tm_put pf r key v).state = { r with tm_sec := x }) ∨
      (key = .keyword "min" ∧ ∃ x, (jd_tm_put pf r key v).state = { r with tm_min := x }) ∨
      (key = .keyword "hour" ∧ ∃ x, (jd_tm_put pf r key v).state = { r with tm_hour := x }) ∨
      (key = .keyword "mday" ∧ ∃ x, (jd_tm_put pf r key v).state = { r with tm_mday := x }) ∨
      (key = .keyword "mon" ∧ ∃ x, (jd_tm_put pf r key v).state = { r with tm_mon := x }) ∨
      (key = .keyword "year" ∧ ∃ x, (jd_tm_put pf r key v).state = { r with tm_year := x }) ∨
      (key = .keyword "wday" ∧ ∃ x, (jd_tm_put pf r key v).state = { r with tm_wday := x }) ∨
      (key = .keyword "yday" ∧ ∃ x, (jd_tm_put pf r key v).state = { r with tm_yday := x }) ∨
      (key = .keyword "isdst" ∧
        ∃ x, (jd_tm_put pf r key v).state = { r with tm_isdst := x })) ∧
    (∀ e, (jd_tm_put pf r key v).result = .error e →
      (jd_tm_put pf r key v).state = r ∧
      (e = .read_only key ∨ e = .type_mismatch v ∨ e = .invalid_field key)) := by
  by_cases hno : ∀ k ∈ jd_tm_keys pf, janet_keyeq key k.key = false
  · have hro := read_only_test_of_no_match pf key hno
    have hl := jd_tm_put_loop_no_match pf r key v _ hno
    have e : jd_tm_put pf r key v = ⟨r, .error (.invalid_field key)⟩ ∨
        jd_tm_put pf r key v = ⟨r, .error (.type_mismatch v)⟩ := by
      unfold jd_tm_put
      rw [hro]
      cases hm : janet_checktypes v
        (JANET_TFLAG_NUMBER ||| JANET_TFLAG_KEYWORD ||| JANET_TFLAG_BOOLEAN) <;> simp [hl]
    rcases e with e | e <;> rw [e] <;> simp
  · push_neg at hno
    obtain ⟨k, hk, hkey⟩ := hno
    have hkw : key = .keyword k.key := by
      cases key <;> simp [janet_keyeq] at hkey ⊢
      exact hkey
    subst hkw
    cases hm : janet_checktypes v
        (JANET_TFLAG_NUMBER ||| JANET_TFLAG_KEYWORD ||| JANET_TFLAG_BOOLEAN) <;>
      cases hg : pf.TM_GMTOFF <;> cases hz : pf.TM_ZONE <;>
      simp [jd_tm_keys, hg, hz] at hk <;>
      rcases hk with rfl | rfl | rfl | rfl | rfl | rfl | rfl | rfl | rfl | rfl | rfl <;>
      simp [jd_tm_put, jd_tm_put_loop, jd_tm_keys, hg, hz, janet_keyeq, hm, Tm.store]

end JanetDate
